import Mathlib

set_option maxHeartbeats 1000000

/- Formal model of the "Ryan Nova Defense" missile-defense game simulation core.
   The repository holds two near-duplicate React app variants; the full-featured
   variant (src/unnamed/part_000, with NORMAL/RARE/LIGHTNING/DRONE ammo types and
   a pause flag) is modeled here, since it is a superset of src/src/App.tsx and
   all cited code locations agree between the two on the shared behavior.

   Modeling conventions:
   - JavaScript numbers are modeled by `JNum`: exact rationals extended with the
     IEEE special values +Infinity, -Infinity and NaN.  Finite arithmetic is
     exact (float rounding is abstracted away); the special-value propagation
     rules (x/0, 0*Infinity, NaN comparisons, Math.max with NaN, ...) follow the
     ECMAScript semantics, which is what the division-by-zero edge case hinges on.
   - `Math.sqrt` is modeled exactly on perfect squares of rationals; on any other
     input it is abstracted to NaN.  No theorem below depends on an inexact root.
   - `Math.random()` call sites, generated id strings, `Math.PI`, `Math.cos`,
     `Math.sin` and the frame-time-derived particle color are modeled as oracles
     supplied in an `Env` record (one oracle per call site, indexed by the
     position of the entity being processed).  No claim depends on the
     distribution of these values.
   - React state: `setScore` updates are functional and batched; the `scoreRef`
     mirror is re-synced by a `useEffect` between animation frames, so within a
     single tick every read of `scoreRef.current` sees the score the tick
     started with, while the in-tick increments accumulate into the state that
     the next tick starts from.  Accordingly `Game.score` is the tick-entry
     score, the phases accumulate into the result's `score`, and the end-of-tick
     win check reads the entry score.
   - The `hasFired` field of InterceptorMissile is declared in the source but
     never read or written, and is omitted. -/

/-- Exact rational square root: `some r` with `r * r = q` when such a rational
exists, `none` otherwise. -/
def ratSqrtExact? (q : ℚ) : Option ℚ :=
  if 0 ≤ q then
    let a := Nat.sqrt q.num.natAbs
    let b := Nat.sqrt q.den
    if a * a = q.num.natAbs ∧ b * b = q.den then some ((a : ℚ) / (b : ℚ)) else none
  else none

/-- JavaScript numbers: exact rationals plus the IEEE special values. -/
inductive JNum : Type where
  | fin : ℚ → JNum
  | inf : JNum
  | ninf : JNum
  | nan : JNum
deriving DecidableEq

/-- Embed a rational as a JavaScript number. -/
def jq (q : ℚ) : JNum := JNum.fin q

namespace JNum

/-- Unary minus. -/
def neg : JNum → JNum
  | fin q => fin (-q)
  | inf => ninf
  | ninf => inf
  | nan => nan

/-- Addition with IEEE special-value rules. -/
def add : JNum → JNum → JNum
  | fin a, fin b => fin (a + b)
  | fin _, inf => inf
  | inf, fin _ => inf
  | inf, inf => inf
  | fin _, ninf => ninf
  | ninf, fin _ => ninf
  | ninf, ninf => ninf
  | _, _ => nan

/-- Multiplication with IEEE special-value rules (`0 * Infinity = NaN`). -/
def mul : JNum → JNum → JNum
  | fin a, fin b => fin (a * b)
  | fin a, inf => if 0 < a then inf else if a < 0 then ninf else nan
  | fin a, ninf => if 0 < a then ninf else if a < 0 then inf else nan
  | inf, fin b => if 0 < b then inf else if b < 0 then ninf else nan
  | ninf, fin b => if 0 < b then ninf else if b < 0 then inf else nan
  | inf, inf => inf
  | inf, ninf => ninf
  | ninf, inf => ninf
  | ninf, ninf => inf
  | _, _ => nan

/-- Division with IEEE special-value rules (`x / 0 = ±Infinity` for `x ≠ 0`,
`0 / 0 = NaN`). -/
def div : JNum → JNum → JNum
  | fin a, fin b =>
      if b = 0 then (if 0 < a then inf else if a < 0 then ninf else nan)
      else fin (a / b)
  | fin _, inf => fin 0
  | fin _, ninf => fin 0
  | inf, fin b => if 0 ≤ b then inf else ninf
  | ninf, fin b => if 0 ≤ b then ninf else inf
  | _, _ => nan

/-- Subtraction. -/
def sub (a b : JNum) : JNum := add a (neg b)

/-- The JavaScript `<` comparison: any comparison involving NaN is false. -/
def lt : JNum → JNum → Bool
  | fin a, fin b => decide (a < b)
  | fin _, inf => true
  | ninf, fin _ => true
  | ninf, inf => true
  | _, _ => false

/-- The JavaScript `<=` comparison: any comparison involving NaN is false. -/
def le : JNum → JNum → Bool
  | fin a, fin b => decide (a ≤ b)
  | fin _, inf => true
  | ninf, fin _ => true
  | ninf, inf => true
  | inf, inf => true
  | ninf, ninf => true
  | _, _ => false

/-- The JavaScript `>` comparison. -/
def gt (a b : JNum) : Bool := lt b a

/-- The JavaScript `>=` comparison. -/
def ge (a b : JNum) : Bool := le b a

/-- The JavaScript `===` on numbers (`NaN === NaN` is false). -/
def jsEq : JNum → JNum → Bool
  | fin a, fin b => decide (a = b)
  | inf, inf => true
  | ninf, ninf => true
  | _, _ => false

/-- `Math.abs`. -/
def jabs : JNum → JNum
  | fin q => fin (if q < 0 then -q else q)
  | inf => inf
  | ninf => inf
  | nan => nan

/-- `Math.max` (NaN-propagating, as in JavaScript). -/
def maxJ : JNum → JNum → JNum
  | nan, _ => nan
  | _, nan => nan
  | a, b => if lt a b then b else a

/-- `Math.sqrt`, exact on perfect squares, NaN on negatives; other finite
inputs are abstracted to NaN (no theorem depends on an inexact root). -/
def sqrtJ : JNum → JNum
  | fin q =>
      match ratSqrtExact? q with
      | some r => fin r
      | none => nan
  | inf => inf
  | ninf => nan
  | nan => nan

/-- Finiteness predicate. -/
def isFinite : JNum → Bool
  | fin _ => true
  | _ => false

end JNum

instance : Add JNum := ⟨JNum.add⟩

instance : Sub JNum := ⟨JNum.sub⟩

instance : Mul JNum := ⟨JNum.mul⟩

instance : Div JNum := ⟨JNum.div⟩

instance : Neg JNum := ⟨JNum.neg⟩

-- --- Constants (src/unnamed/part_000, lines 13-18) ---

/-- WIN_SCORE. -/
def WIN_SCORE : ℤ := 1000

/-- EXPLOSION_RADIUS. -/
def EXPLOSION_RADIUS : ℚ := 40

/-- EXPLOSION_DURATION (frames). -/
def EXPLOSION_DURATION : ℚ := 60

/-- ENEMY_SPEED_BASE (0.8). -/
def ENEMY_SPEED_BASE : ℚ := 4 / 5

/-- MISSILE_SPEED. -/
def MISSILE_SPEED : ℚ := 5

-- --- Entities ---

/-- EnemyRocket. -/
structure Enemy where
  id : String
  startX : JNum
  startY : JNum
  targetX : JNum
  targetY : JNum
  x : JNum
  y : JNum
  progress : JNum
  speed : JNum
deriving DecidableEq

/-- MissileType. -/
inductive MissileType : Type where
  | NORMAL | RARE | LIGHTNING | DRONE
deriving DecidableEq

/-- InterceptorMissile (the `hasFired` field is declared in the source but
never used). -/
structure Missile where
  id : String
  startX : JNum
  startY : JNum
  targetX : JNum
  targetY : JNum
  x : JNum
  y : JNum
  progress : JNum
  type : MissileType
  hoverTimer : Option ℤ
deriving DecidableEq

/-- Explosion (`isRare?: boolean` models as a Bool defaulting to false). -/
structure Explosion where
  id : String
  x : JNum
  y : JNum
  radius : JNum
  maxRadius : JNum
  life : JNum
  isRare : Bool
deriving DecidableEq

/-- City. -/
structure City where
  id : String
  x : JNum
  y : JNum
  active : Bool
deriving DecidableEq

/-- Battery. -/
structure Battery where
  id : String
  x : JNum
  y : JNum
  active : Bool
  ammo : ℤ
  maxAmmo : ℤ
deriving DecidableEq

/-- Particle. -/
structure Particle where
  id : String
  x : JNum
  y : JNum
  vx : JNum
  vy : JNum
  life : JNum
  color : String
  size : JNum
deriving DecidableEq

/-- GameState. -/
inductive GState : Type where
  | START | PLAYING | WIN | GAMEOVER
deriving DecidableEq

/-- The simulation state owned by the component refs.  `score` is the score at
tick entry (see header comment on React state batching); `width`/`height` are
the canvas dimensions. -/
structure Game where
  gameState : GState
  isPaused : Bool
  score : ℤ
  width : JNum
  height : JNum
  enemies : List Enemy
  missiles : List Missile
  explosions : List Explosion
  particles : List Particle
  cities : List City
  batteries : List Battery
deriving DecidableEq

/-- Oracles for the nondeterministic inputs of one tick / one fire request:
each `Math.random()` call site, each generated id string, `Math.PI`,
`Math.cos`, `Math.sin`, and the frame-time-derived particle color. -/
structure Env where
  spawnGate : ℚ
  spawnTarget : ℚ
  spawnX : ℚ
  spawnId : String
  fireRoll : ℚ
  fireId : String
  piv : JNum
  cosv : JNum → JNum
  sinv : JNum → JNum
  impactId : ℕ → String
  subId : ℕ → String
  finalId : ℕ → ℕ → String
  rareId : ℕ → String
  lightId : ℕ → ℕ → String
  mExpId : ℕ → String
  droneRoll1 : ℕ → ℚ
  droneRoll2 : ℕ → ℚ
  pRoll1 : ℕ → ℕ → ℚ
  pRoll2 : ℕ → ℕ → ℚ
  pRoll3 : ℕ → ℕ → ℚ
  pId : ℕ → ℕ → String
  pColor : String

/-- A fixed environment with inert oracles, used to instantiate theorems on
concrete states (`spawnGate` is large enough that no enemy spawns at the
scores involved). -/
def trivEnv : Env :=
  { spawnGate := 9, spawnTarget := 0, spawnX := 0, spawnId := "e",
    fireRoll := 1, fireId := "m", piv := jq 0,
    cosv := fun _ => jq 0, sinv := fun _ => jq 0,
    impactId := fun _ => "imp", subId := fun _ => "sub",
    finalId := fun _ _ => "fin0", rareId := fun _ => "rare",
    lightId := fun _ _ => "bolt", mExpId := fun _ => "exp",
    droneRoll1 := fun _ => 0, droneRoll2 := fun _ => 0,
    pRoll1 := fun _ _ => 0, pRoll2 := fun _ _ => 0, pRoll3 := fun _ _ => 0,
    pId := fun _ _ => "p", pColor := "hsl" }

-- --- Spawner (spawnEnemy, lines 217-237) ---

/-- spawnEnemy: pick a uniformly random active city/battery target (cities
first, as in the source concatenation) and append a new enemy rocket; no-op if
no target is active. -/
def spawnEnemy (env : Env) (g : Game) : Game :=
  let targets :=
    (g.cities.filter (fun c => c.active)).map (fun c => (c.x, c.y)) ++
    (g.batteries.filter (fun b => b.active)).map (fun b => (b.x, b.y))
  if targets.length = 0 then g
  else
    let k := (Int.floor (env.spawnTarget * (targets.length : ℚ))).toNat
    let t := targets.getD k (jq 0, jq 0)
    { g with enemies := g.enemies ++
        [{ id := env.spawnId, startX := jq env.spawnX * g.width, startY := jq (-20),
           targetX := t.1, targetY := t.2, x := jq 0, y := jq 0, progress := jq 0,
           speed := jq (ENEMY_SPEED_BASE + ((g.score : ℚ) / 1000) * (1 / 2)) }] }

/-- The spawn gate at the top of the tick (line 343):
`Math.random() < 0.015 + score/5000`, reading the tick-entry score. -/
def spawnPhase (env : Env) (g : Game) : Game :=
  if env.spawnGate < 3 / 200 + (g.score : ℚ) / 5000 then spawnEnemy env g else g

-- --- Enemy advance & impact (lines 348-387) ---

/-- The start-to-target distance of an enemy rocket. -/
def enemyDist (e : Enemy) : JNum :=
  let dx := e.targetX - e.startX
  let dy := e.targetY - e.startY
  JNum.sqrtJ (dx * dx + dy * dy)

/-- The kinematic part of the per-enemy update (lines 349-355): advance
progress by `speed / dist` and recompute the position by linear interpolation
with the updated progress. -/
def advanceEnemy (e : Enemy) : Enemy :=
  let dx := e.targetX - e.startX
  let dy := e.targetY - e.startY
  let dist := JNum.sqrtJ (dx * dx + dy * dy)
  let p := e.progress + e.speed / dist
  { e with progress := p, x := e.startX + dx * p, y := e.startY + dy * p }

/-- The approximate position match used on impact:
`Math.abs(c.x - enemy.targetX) < 5` (x-coordinate only). -/
def cityHit (tx : JNum) (c : City) : Bool := JNum.lt (JNum.jabs (c.x - tx)) (jq 5)

/-- The approximate position match for batteries (x-coordinate only). -/
def batteryHit (tx : JNum) (b : Battery) : Bool :=
  JNum.lt (JNum.jabs (b.x - tx)) (jq 5)

/-- `citiesRef.current.find(...)` followed by `city.active = false`: deactivate
the first x-matching city (matching or not already active), leave the rest
unchanged. -/
def deactivateFirstCity (tx : JNum) : List City → List City
  | [] => []
  | c :: cs =>
      if cityHit tx c then { c with active := false } :: cs
      else c :: deactivateFirstCity tx cs

/-- Deactivate the first x-matching battery, leave the rest unchanged. -/
def deactivateFirstBattery (tx : JNum) : List Battery → List Battery
  | [] => []
  | b :: bs =>
      if batteryHit tx b then { b with active := false } :: bs
      else b :: deactivateFirstBattery tx bs

/-- Accumulator for the enemy filter pass: the kept enemies plus the shared
stores the filter callback mutates. -/
structure EAcc where
  kept : List Enemy
  explosions : List Explosion
  cities : List City
  batteries : List Battery
deriving DecidableEq

/-- One enemy of the filter pass (lines 348-387): advance; on `progress >= 1`
push a fixed impact explosion at the target point, deactivate the first
x-matching city and the first x-matching battery, and drop the enemy;
otherwise keep the advanced enemy. -/
def stepEnemy (env : Env) (i : ℕ) (a : EAcc) (e : Enemy) : EAcc :=
  let e2 := advanceEnemy e
  if JNum.ge e2.progress (jq 1) then
    { a with
      explosions := a.explosions ++
        [{ id := env.impactId i, x := e.targetX, y := e.targetY,
           radius := jq 0, maxRadius := jq 30, life := jq 1, isRare := false }],
      cities := deactivateFirstCity e.targetX a.cities,
      batteries := deactivateFirstBattery e.targetX a.batteries }
  else { a with kept := a.kept ++ [e2] }

/-- Run the enemy filter pass over the list. -/
def runEnemies (env : Env) : ℕ → EAcc → List Enemy → EAcc
  | _, a, [] => a
  | i, a, e :: es => runEnemies env (i + 1) (stepEnemy env i a e) es

/-- Step 1 of the tick: enemy advance and impact resolution. -/
def enemyPhase (env : Env) (g : Game) : Game :=
  let a := runEnemies env 0
    { kept := [], explosions := g.explosions, cities := g.cities,
      batteries := g.batteries } g.enemies
  { g with enemies := a.kept, explosions := a.explosions, cities := a.cities,
           batteries := a.batteries }

-- --- Missile advance & terminal effects (lines 390-563) ---

/-- The kinematic part of the per-missile update (lines 391-399): while
`progress < 1`, advance by `MISSILE_SPEED / dist` and recompute the position. -/
def advanceMissile (m : Missile) : Missile :=
  let dx := m.targetX - m.startX
  let dy := m.targetY - m.startY
  let dist := JNum.sqrtJ (dx * dx + dy * dy)
  if JNum.lt m.progress (jq 1) then
    let p := m.progress + jq MISSILE_SPEED / dist
    { m with progress := p, x := m.startX + dx * p, y := m.startY + dy * p }
  else m

/-- Accumulator for the missile filter pass. -/
structure MAcc where
  kept : List Missile
  enemies : List Enemy
  explosions : List Explosion
  score : ℤ
deriving DecidableEq

/-- The enemies within 300 units of the lightning impact point (line 504). -/
def nearFilter (mx my : JNum) (es : List Enemy) : List Enemy :=
  es.filter (fun e =>
    JNum.lt (JNum.sqrtJ ((e.x - mx) * (e.x - mx) + (e.y - my) * (e.y - my))) (jq 300))

/-- The lightning chain (lines 510-538): every even-indexed nearby enemy is
removed by id, awards 20 points and spawns a small explosion at its position. -/
def runLightning (env : Env) (mi : ℕ) :
    ℕ → List Enemy × List Explosion × ℤ → List Enemy → List Enemy × List Explosion × ℤ
  | _, st, [] => st
  | j, (ens, exps, sc), e :: rest =>
      if j % 2 = 0 then
        runLightning env mi (j + 1)
          (ens.filter (fun en => en.id ≠ e.id),
           exps ++ [{ id := env.lightId mi j, x := e.x, y := e.y, radius := jq 0,
                      maxRadius := jq 20, life := jq (1 / 2), isRare := false }],
           sc + 20) rest
      else runLightning env mi (j + 1) (ens, exps, sc) rest

/-- The 12-explosion final burst of a drone (lines 470-480), arranged evenly
around the drone's position at angles `(i/12) * PI * 2` and offset 80 units. -/
def droneBurst (env : Env) (i : ℕ) (cx cy : JNum) : List Explosion :=
  (List.range 12).map (fun (k : ℕ) =>
    let ang := jq ((k : ℚ) / 12) * env.piv * jq 2
    { id := env.finalId i k, x := cx + env.cosv ang * jq 80,
      y := cy + env.sinv ang * jq 80, radius := jq 0,
      maxRadius := jq EXPLOSION_RADIUS, life := jq 1, isRare := false })

/-- One missile of the filter pass (lines 390-563): advance while
`progress < 1`; on `progress >= 1` dispatch on the ammo type (DRONE hovers,
decrementing its timer and dropping a sub-bomb every 20 ticks, then bursts;
RARE spawns the screen-wide rare explosion; LIGHTNING chains; NORMAL spawns a
fixed explosion). -/
def stepMissile (env : Env) (w h : JNum) (i : ℕ) (a : MAcc) (m : Missile) : MAcc :=
  let m2 := advanceMissile m
  if JNum.ge m2.progress (jq 1) then
    match m2.type with
    | MissileType.DRONE =>
        match m2.hoverTimer with
        | some t =>
            if 0 < t then
              let t2 := t - 1
              let exps :=
                if t2 % 20 = 0 then
                  let ang := jq (env.droneRoll1 i) * env.piv * jq 2
                  let d := jq (env.droneRoll2 i * 150 + 50)
                  [{ id := env.subId i, x := m2.x + env.cosv ang * d,
                     y := m2.y + env.sinv ang * d, radius := jq 0,
                     maxRadius := jq (EXPLOSION_RADIUS * (3 / 5)), life := jq 1,
                     isRare := false }]
                else []
              { a with kept := a.kept ++ [{ m2 with hoverTimer := some t2 }],
                       explosions := a.explosions ++ exps }
            else { a with explosions := a.explosions ++ droneBurst env i m2.x m2.y }
        | none => { a with explosions := a.explosions ++ droneBurst env i m2.x m2.y }
    | MissileType.RARE =>
        { a with explosions := a.explosions ++
            [{ id := env.rareId i, x := m2.x, y := m2.y, radius := jq 0,
               maxRadius := JNum.maxJ w h * jq (3 / 2), life := jq 1,
               isRare := true }] }
    | MissileType.LIGHTNING =>
        let nearby := nearFilter m2.x m2.y a.enemies
        let st := runLightning env i 0 (a.enemies, a.explosions, a.score) nearby
        { a with enemies := st.1,
                 explosions := st.2.1 ++
                   [{ id := env.mExpId i, x := m2.targetX, y := m2.targetY,
                      radius := jq 0, maxRadius := jq EXPLOSION_RADIUS,
                      life := jq 1, isRare := false }],
                 score := st.2.2 }
    | MissileType.NORMAL =>
        { a with explosions := a.explosions ++
            [{ id := env.mExpId i, x := m2.targetX, y := m2.targetY,
               radius := jq 0, maxRadius := jq EXPLOSION_RADIUS, life := jq 1,
               isRare := false }] }
  else { a with kept := a.kept ++ [m2] }

/-- Run the missile filter pass. -/
def runMissiles (env : Env) (w h : JNum) : ℕ → MAcc → List Missile → MAcc
  | _, a, [] => a
  | i, a, m :: ms => runMissiles env w h (i + 1) (stepMissile env w h i a m) ms

/-- Step 2 of the tick: missile advance and terminal-effect dispatch. -/
def missilePhase (env : Env) (g : Game) : Game :=
  let a := runMissiles env g.width g.height 0
    { kept := [], enemies := g.enemies, explosions := g.explosions,
      score := g.score } g.missiles
  { g with missiles := a.kept, enemies := a.enemies, explosions := a.explosions,
           score := a.score }

-- --- Explosion advance & collision (lines 566-639) ---

/-- The radius-from-life profile (lines 588-592): grow linearly to maxRadius
while life descends through (0.5, 1], shrink linearly back on [0, 0.5]. -/
def explosionRadius (maxR life : JNum) : JNum :=
  if JNum.gt life (jq (1 / 2)) then
    JNum.maxJ (jq 0) (maxR * (jq 1 - (life - jq (1 / 2)) * jq 2))
  else
    JNum.maxJ (jq 0) (maxR * (life * jq 2))

/-- The batch of 15 particles emitted on an explosion's creation tick
(lines 571-586). -/
def mkParticles (env : Env) (i : ℕ) (cx cy : JNum) : List Particle :=
  (List.range 15).map (fun j =>
    let ang := jq (env.pRoll1 i j) * env.piv * jq 2
    let spd := jq (env.pRoll2 i j * 3 + 1)
    { id := env.pId i j, x := cx, y := cy,
      vx := env.cosv ang * spd, vy := env.sinv ang * spd,
      life := jq 1, size := jq (env.pRoll3 i j * 3 + 1), color := env.pColor })

/-- The proximity sweep of one explosion over the enemies (lines 627-636):
remove every enemy strictly inside the current radius, awarding 20 points
each; returns the survivors and the total score increment. -/
def proxSweep (cx cy r : JNum) : List Enemy → List Enemy × ℤ
  | [] => ([], 0)
  | e :: es =>
      let rest := proxSweep cx cy r es
      if JNum.lt (JNum.sqrtJ ((e.x - cx) * (e.x - cx) + (e.y - cy) * (e.y - cy))) r
      then (rest.1, rest.2 + 20)
      else (e :: rest.1, rest.2)

/-- Accumulator for the explosion filter pass. -/
structure XAcc where
  kept : List Explosion
  enemies : List Enemy
  particles : List Particle
  score : ℤ
deriving DecidableEq

/-- One explosion of the filter pass (lines 566-639): decrement life by
`1/EXPLOSION_DURATION`; emit particles on the creation tick (`oldLife === 1`);
recompute the radius; if the explosion is rare and the new life is strictly
between 0.4 and 0.6, clear all live enemies awarding 20 each; then run the
proximity sweep; keep the explosion while `life > 0`. -/
def stepExplosion (env : Env) (i : ℕ) (a : XAcc) (exp : Explosion) : XAcc :=
  let oldLife := exp.life
  let life2 := exp.life - jq (1 / EXPLOSION_DURATION)
  let parts := if JNum.jsEq oldLife (jq 1) then mkParticles env i exp.x exp.y else []
  let r := explosionRadius exp.maxRadius life2
  let cleared :=
    if exp.isRare && JNum.lt life2 (jq (3 / 5)) && JNum.gt life2 (jq (2 / 5)) then
      if 0 < a.enemies.length then
        (([] : List Enemy), a.score + 20 * (a.enemies.length : ℤ))
      else (a.enemies, a.score)
    else (a.enemies, a.score)
  let swept := proxSweep exp.x exp.y r cleared.1
  let keptHere :=
    if JNum.gt life2 (jq 0) then [{ exp with life := life2, radius := r }] else []
  { kept := a.kept ++ keptHere, enemies := swept.1,
    particles := a.particles ++ parts, score := cleared.2 + swept.2 }

/-- Run the explosion filter pass. -/
def runExplosions (env : Env) : ℕ → XAcc → List Explosion → XAcc
  | _, a, [] => a
  | i, a, e :: es => runExplosions env (i + 1) (stepExplosion env i a e) es

/-- Step 3 of the tick: explosion advance and enemy collision. -/
def explosionPhase (env : Env) (g : Game) : Game :=
  let a := runExplosions env 0
    { kept := [], enemies := g.enemies, particles := g.particles,
      score := g.score } g.explosions
  { g with explosions := a.kept, enemies := a.enemies, particles := a.particles,
           score := a.score }

-- --- Particle advance (lines 642-657) ---

/-- One particle per tick: decay life by 0.02, integrate velocity, apply 0.98
friction; keep while `life > 0`. -/
def stepParticle (p : Particle) : Option Particle :=
  let p2 := { p with life := p.life - jq (1 / 50), x := p.x + p.vx,
                     y := p.y + p.vy, vx := p.vx * jq (49 / 50),
                     vy := p.vy * jq (49 / 50) }
  if JNum.gt p2.life (jq 0) then some p2 else none

/-- Step 4 of the tick: particle advance. -/
def particlePhase (g : Game) : Game :=
  { g with particles := g.particles.filterMap stepParticle }

-- --- The tick (update, lines 285-774) ---

/-- One simulation tick.  No-op unless PLAYING and unpaused.  The terminal
check at the end (lines 761-771) reads `scoreRef.current`, which within the
tick still holds the tick-entry score (see the header comment), and then the
batteries as updated by this tick. -/
def update (env : Env) (g : Game) : Game :=
  if g.gameState ≠ GState.PLAYING then g
  else if g.isPaused then g
  else
    let g1 := spawnPhase env g
    let g2 := enemyPhase env g1
    let g3 := missilePhase env g2
    let g4 := explosionPhase env g3
    let g5 := particlePhase g4
    if WIN_SCORE ≤ g.score then { g5 with gameState := GState.WIN }
    else if g5.batteries.all (fun b => !b.active) then
      { g5 with gameState := GState.GAMEOVER }
    else g5

-- --- Targeting / dispatch (fireMissile, lines 239-283) ---

/-- Eligibility of a battery to fire: active with ammo left. -/
def eligible (b : Battery) : Bool := b.active && decide (0 < b.ammo)

/-- The horizontal distance `Math.abs(b.x - targetX)` used for selection. -/
def bdist (tx : JNum) (b : Battery) : JNum := JNum.jabs (b.x - tx)

/-- The battery-selection fold (lines 242-253): scan the batteries carrying
the best index and its horizontal distance, replacing only on a strictly
smaller distance (first encountered wins on ties; the initial distance is
Infinity). -/
def selGo (tx : JNum) : ℕ → Option ℕ → JNum → List Battery → Option ℕ
  | _, best, _, [] => best
  | i, best, minD, b :: bs =>
      if eligible b then
        let d := bdist tx b
        if JNum.lt d minD then selGo tx (i + 1) (some i) d bs
        else selGo tx (i + 1) best minD bs
      else selGo tx (i + 1) best minD bs

/-- The index of the battery `fireMissile` selects, if any. -/
def selectBattery (tx : JNum) (bs : List Battery) : Option ℕ :=
  selGo tx 0 none JNum.inf bs

/-- The cumulative ammo-type thresholds (lines 263-267). -/
def rollType (r : ℚ) : MissileType :=
  if r < 1 / 10 then MissileType.RARE
  else if r < 1 / 4 then MissileType.LIGHTNING
  else if r < 2 / 5 then MissileType.DRONE
  else MissileType.NORMAL

/-- fireMissile (lines 239-283): only while PLAYING and unpaused; pick the
eligible battery minimizing `|battery.x - targetX|`, decrement its ammo, roll
the ammo type and append one interceptor starting at the battery's position
with progress 0 (DRONE missiles start a 180-tick hover countdown). -/
def fireMissile (env : Env) (tx ty : JNum) (g : Game) : Game :=
  if g.gameState ≠ GState.PLAYING then g
  else if g.isPaused then g
  else
    match selectBattery tx g.batteries with
    | none => g
    | some i =>
        match g.batteries.get? i with
        | none => g
        | some b =>
            let ty0 := rollType env.fireRoll
            let m : Missile :=
              { id := env.fireId, startX := b.x, startY := b.y, targetX := tx,
                targetY := ty, x := b.x, y := b.y, progress := jq 0, type := ty0,
                hoverTimer := some (if ty0 = MissileType.DRONE then 180 else 0) }
            { g with batteries := g.batteries.set i { b with ammo := b.ammo - 1 },
                     missiles := g.missiles ++ [m] }

-- --- Session initialization (initGame, lines 158-190) ---

/-- The six cities at fixed proportional positions. -/
def cityInit (w h : JNum) : List City :=
  [{ id := "city-0", x := w * jq (3 / 20), y := h - jq 40, active := true },
   { id := "city-1", x := w * jq (1 / 4), y := h - jq 40, active := true },
   { id := "city-2", x := w * jq (7 / 20), y := h - jq 40, active := true },
   { id := "city-3", x := w * jq (13 / 20), y := h - jq 40, active := true },
   { id := "city-4", x := w * jq (3 / 4), y := h - jq 40, active := true },
   { id := "city-5", x := w * jq (17 / 20), y := h - jq 40, active := true }]

/-- The three batteries with their initial ammo pools {20, 40, 20}. -/
def batteryInit (w h : JNum) : List Battery :=
  [{ id := "left", x := w * jq (1 / 20), y := h - jq 50, active := true,
     ammo := 20, maxAmmo := 20 },
   { id := "center", x := w * jq (1 / 2), y := h - jq 50, active := true,
     ammo := 40, maxAmmo := 40 },
   { id := "right", x := w * jq (19 / 20), y := h - jq 50, active := true,
     ammo := 20, maxAmmo := 20 }]

/-- initGame (lines 158-190): fresh cities, batteries and empty stores with a
zero score.  The session state and pause flag are owned by the controller and
passed through. -/
def initGame (w h : JNum) (gs : GState) (paused : Bool) : Game :=
  { gameState := gs, isPaused := paused, score := 0, width := w, height := h,
    enemies := [], missiles := [], explosions := [], particles := [],
    cities := cityInit w h, batteries := batteryInit w h }

/-- How one tick may relate an initial battery to the resulting one, given
the list `txs` of target x-coordinates of the enemies that impacted during
the tick: every field except the active flag is unchanged, an inactive
battery never reactivates, and a battery can become inactive only when some
impacting enemy's target x matches it within the 5-unit tolerance. -/
def battRel (txs : List JNum) (b b2 : Battery) : Prop :=
  b2.id = b.id ∧ b2.x = b.x ∧ b2.y = b.y ∧ b2.ammo = b.ammo ∧
  b2.maxAmmo = b.maxAmmo ∧ (b.active = false → b2.active = false) ∧
  (b2.active = false → b.active = false ∨ ∃ tx ∈ txs, batteryHit tx b = true)

/-- The city analogue of `battRel`. -/
def cityRel (txs : List JNum) (c c2 : City) : Prop :=
  c2.id = c.id ∧ c2.x = c.x ∧ c2.y = c.y ∧
  (c.active = false → c2.active = false) ∧
  (c2.active = false → c.active = false ∨ ∃ tx ∈ txs, cityHit tx c = true)

-- --- Concrete instances used to instantiate the theorems below ---

/-- A degenerate enemy rocket whose target coincides with its spawn point. -/
def c3Enemy : Enemy :=
  { id := "e0", startX := jq 100, startY := jq 0, targetX := jq 100,
    targetY := jq 0, x := jq 0, y := jq 0, progress := jq 0, speed := jq (4 / 5) }

/-- A game in PLAYING state whose three batteries are all out of ammo. -/
def c8Game : Game :=
  { gameState := GState.PLAYING, isPaused := false, score := 0, width := jq 800,
    height := jq 600, enemies := [], missiles := [], explosions := [],
    particles := [],
    cities := [{ id := "city-0", x := jq 120, y := jq 560, active := true }],
    batteries :=
      [{ id := "left", x := jq 40, y := jq 550, active := true, ammo := 0,
         maxAmmo := 20 },
       { id := "center", x := jq 400, y := jq 550, active := true, ammo := 0,
         maxAmmo := 40 },
       { id := "right", x := jq 760, y := jq 550, active := true, ammo := 0,
         maxAmmo := 20 }] }

/-- A drone interceptor hovering at its target with an expired countdown. -/
def c6Missile : Missile :=
  { id := "m", startX := jq 0, startY := jq 0, targetX := jq 3, targetY := jq 4,
    x := jq 3, y := jq 4, progress := jq 1, type := MissileType.DRONE,
    hoverTimer := some 0 }

/-- An empty missile-pass accumulator. -/
def c6Acc : MAcc := { kept := [], enemies := [], explosions := [], score := 0 }

/-- A rare explosion one decrement above life 0.5. -/
def c2Exp : Explosion :=
  { id := "rare", x := jq 0, y := jq 0, radius := jq 10, maxRadius := jq 1200,
    life := jq (31 / 60), isRare := true }

/-- An explosion-pass accumulator with two live enemies. -/
def c2Acc : XAcc :=
  { kept := [],
    enemies :=
      [{ id := "a", startX := jq 10, startY := jq (-20), targetX := jq 300,
         targetY := jq 500, x := jq 100, y := jq 140, progress := jq (3 / 10),
         speed := jq (4 / 5) },
       { id := "b", startX := jq 600, startY := jq (-20), targetX := jq 200,
         targetY := jq 500, x := jq 500, y := jq 110, progress := jq (1 / 4),
         speed := jq (4 / 5) }],
    particles := [], score := 100 }

/-- An enemy rocket one tick from impact on the target point (100, 0). -/
def c4Enemy : Enemy :=
  { id := "e", startX := jq 100, startY := jq (-3), targetX := jq 100,
    targetY := jq 0, x := jq 100, y := jq (-3 / 2), progress := jq (1 / 2),
    speed := jq 3 }

/-- A game whose only city sits 500 units below the enemy's target point but
shares its x-coordinate. -/
def c4Game : Game :=
  { gameState := GState.PLAYING, isPaused := false, score := 0, width := jq 800,
    height := jq 600, enemies := [c4Enemy], missiles := [], explosions := [],
    particles := [],
    cities := [{ id := "c", x := jq 100, y := jq 500, active := true }],
    batteries := [] }

/-- An empty enemy-pass accumulator. -/
def c3Acc : EAcc := { kept := [], explosions := [], cities := [], batteries := [] }

/-- A fresh game with the three standard batteries at distinct positions. -/
def c7Game : Game :=
  { gameState := GState.PLAYING, isPaused := false, score := 0, width := jq 800,
    height := jq 600, enemies := [], missiles := [], explosions := [],
    particles := [], cities := [],
    batteries :=
      [{ id := "left", x := jq 40, y := jq 550, active := true, ammo := 20,
         maxAmmo := 20 },
       { id := "center", x := jq 400, y := jq 550, active := true, ammo := 40,
         maxAmmo := 40 },
       { id := "right", x := jq 760, y := jq 550, active := true, ammo := 20,
         maxAmmo := 20 }] }

/-- A small mid-session game state with a score of 40. -/
def c9Game : Game :=
  { gameState := GState.PLAYING, isPaused := false, score := 40, width := jq 800,
    height := jq 600, enemies := [], missiles := [], explosions := [],
    particles := [], cities := [], batteries := [] }

/-- A playing game with one city and one battery, used to instantiate the
frame property. -/
def c10Game : Game :=
  { gameState := GState.PLAYING, isPaused := false, score := 0, width := jq 800,
    height := jq 600, enemies := [], missiles := [], explosions := [],
    particles := [],
    cities := [{ id := "c", x := jq 120, y := jq 560, active := true }],
    batteries := [{ id := "left", x := jq 40, y := jq 550, active := true,
                    ammo := 20, maxAmmo := 20 }] }

/-- An enemy rocket one tick from impacting the battery at x = 100. -/
def c1e1 : Enemy :=
  { id := "e1", startX := jq 100, startY := jq (-3), targetX := jq 100,
    targetY := jq 0, x := jq 100, y := jq (-3 / 2), progress := jq (1 / 2),
    speed := jq 3 }

/-- An enemy rocket that will sit inside the live explosion this tick. -/
def c1e2 : Enemy :=
  { id := "e2", startX := jq 0, startY := jq 0, targetX := jq 0,
    targetY := jq 100, x := jq 0, y := jq 10, progress := jq (1 / 10),
    speed := jq 1 }

/-- A live mid-life explosion centered where `c1e2` will be after its
advance. -/
def c1exp : Explosion :=
  { id := "x", x := jq 0, y := jq 11, radius := jq 0, maxRadius := jq 40,
    life := jq (4 / 5), isRare := false }

/-- The last surviving battery, in the path of `c1e1`. -/
def c1b1 : Battery :=
  { id := "left", x := jq 100, y := jq 0, active := true, ammo := 5,
    maxAmmo := 20 }

/-- An already-destroyed battery. -/
def c1b2 : Battery :=
  { id := "center", x := jq 400, y := jq 0, active := false, ammo := 0,
    maxAmmo := 40 }

/-- Another already-destroyed battery. -/
def c1b3 : Battery :=
  { id := "right", x := jq 700, y := jq 0, active := false, ammo := 0,
    maxAmmo := 20 }

/-- A game entering the tick with score 980 in which, during the same tick,
an explosion kill brings the cumulative score to exactly 1000 and the last
battery falls to a direct impact. -/
def c1Game : Game :=
  { gameState := GState.PLAYING, isPaused := false, score := 980,
    width := jq 800, height := jq 600, enemies := [c1e1, c1e2], missiles := [],
    explosions := [c1exp], particles := [], cities := [],
    batteries := [c1b1, c1b2, c1b3] }

/-- `c1e2` after this tick's advance. -/
def c1e2adv : Enemy :=
  { id := "e2", startX := jq 0, startY := jq 0, targetX := jq 0,
    targetY := jq 100, x := jq 0, y := jq 11, progress := jq (11 / 100),
    speed := jq 1 }

/-- The impact explosion spawned when `c1e1` hits its target. -/
def c1imp : Explosion :=
  { id := "imp", x := jq 100, y := jq 0, radius := jq 0, maxRadius := jq 30,
    life := jq 1, isRare := false }

/-- The last battery after being destroyed by `c1e1`. -/
def c1b1down : Battery :=
  { id := "left", x := jq 100, y := jq 0, active := false, ammo := 5,
    maxAmmo := 20 }

/-- `c1Game` after the enemy phase of the tick. -/
def c1Mid : Game :=
  { gameState := GState.PLAYING, isPaused := false, score := 980,
    width := jq 800, height := jq 600, enemies := [c1e2adv], missiles := [],
    explosions := [c1exp, c1imp], particles := [], cities := [],
    batteries := [c1b1down, c1b2, c1b3] }

/-- `c1exp` after this tick's life decrement and radius update. -/
def c1expAfter : Explosion :=
  { id := "x", x := jq 0, y := jq 11, radius := jq (52 / 3), maxRadius := jq 40,
    life := jq (47 / 60), isRare := false }

/-- `c1imp` after this tick's life decrement and radius update. -/
def c1impAfter : Explosion :=
  { id := "imp", x := jq 100, y := jq 0, radius := jq 1, maxRadius := jq 30,
    life := jq (59 / 60), isRare := false }

/-- `c1Game` after the explosion phase of the tick: the score has reached
1000 and every enemy is gone. -/
def c1Post : Game :=
  { gameState := GState.PLAYING, isPaused := false, score := 1000,
    width := jq 800, height := jq 600, enemies := [], missiles := [],
    explosions := [c1expAfter, c1impAfter],
    particles := mkParticles trivEnv 1 (jq 100) (jq 0), cities := [],
    batteries := [c1b1down, c1b2, c1b3] }

-- --- Basic JNum lemmas ---

theorem jq_add (a b : ℚ) : jq a + jq b = jq (a + b) := rfl

theorem jq_mul (a b : ℚ) : jq a * jq b = jq (a * b) := rfl

theorem jq_sub (a b : ℚ) : jq a - jq b = jq (a - b) := by
  show JNum.sub (jq a) (jq b) = jq (a - b)
  simp [JNum.sub, JNum.add, JNum.neg, jq, sub_eq_add_neg]

theorem jq_div (a b : ℚ) (hb : b ≠ 0) : jq a / jq b = jq (a / b) := by
  show JNum.div (jq a) (jq b) = jq (a / b)
  simp [JNum.div, jq, hb]

theorem jq_div_zero (a : ℚ) (ha : 0 < a) : jq a / jq 0 = JNum.inf := by
  show JNum.div (jq a) (jq 0) = JNum.inf
  simp [JNum.div, jq, ha]

theorem jq_add_inf (a : ℚ) : jq a + JNum.inf = JNum.inf := rfl

theorem jq_add_nan (a : ℚ) : jq a + JNum.nan = JNum.nan := rfl

theorem jq_zero_mul_inf : jq 0 * JNum.inf = JNum.nan := by
  show JNum.mul (JNum.fin 0) JNum.inf = JNum.nan
  norm_num [JNum.mul]

theorem jq_lt (a b : ℚ) : JNum.lt (jq a) (jq b) = decide (a < b) := rfl

theorem jq_le (a b : ℚ) : JNum.le (jq a) (jq b) = decide (a ≤ b) := rfl

theorem jq_gt (a b : ℚ) : JNum.gt (jq a) (jq b) = decide (b < a) := rfl

theorem jq_ge (a b : ℚ) : JNum.ge (jq a) (jq b) = decide (b ≤ a) := rfl

theorem jq_jabs (a : ℚ) : JNum.jabs (jq a) = jq (if a < 0 then -a else a) := rfl

theorem jq_maxJ (a b : ℚ) :
    JNum.maxJ (jq a) (jq b) = (if a < b then jq b else jq a) := by
  by_cases hab : a < b
  · simp [JNum.maxJ, jq, JNum.lt, hab]
  · simp [JNum.maxJ, jq, JNum.lt, hab]

theorem sqrtJ_mul_self (q : ℚ) (h : 0 ≤ q) : JNum.sqrtJ (jq (q * q)) = jq q := by
  have hnum : (q * q).num = q.num * q.num := Rat.mul_self_num q
  have hden : (q * q).den = q.den * q.den := Rat.mul_self_den q
  have hs1 : Nat.sqrt ((q * q).num.natAbs) = q.num.natAbs := by
    rw [hnum, Int.natAbs_mul,
        show q.num.natAbs * q.num.natAbs = q.num.natAbs ^ 2 by ring, Nat.sqrt_eq']
  have hs2 : Nat.sqrt ((q * q).den) = q.den := by
    rw [hden, show q.den * q.den = q.den ^ 2 by ring, Nat.sqrt_eq']
  have hq : 0 ≤ q * q := mul_self_nonneg q
  simp only [JNum.sqrtJ, ratSqrtExact?, if_pos hq, hs1, hs2, jq]
  rw [if_pos ⟨by rw [hnum, Int.natAbs_mul], by rw [hden]⟩]
  have hnn : (q.num.natAbs : ℚ) = (q.num : ℚ) := by
    rw [Int.cast_natAbs]
    exact_mod_cast abs_of_nonneg (Rat.num_nonneg.mpr h)
  rw [hnn, Rat.num_div_den]

theorem sqrtJ_zero : JNum.sqrtJ (jq 0) = jq 0 := by
  have := sqrtJ_mul_self 0 le_rfl
  simpa using this

-- --- C3: degenerate geometry ---

/-- C3 (counterexample): for an enemy projectile whose target coincides with
its spawn point, the tick does perform the division `speed / dist` with
`dist = 0` — progress becomes +Infinity — and the transient position computed
that tick is NaN, so it is false that no division by zero is performed and
that all positions remain finite. -/
theorem C3_counterexample :
    enemyDist c3Enemy = jq 0 ∧
    (advanceEnemy c3Enemy).progress = JNum.inf ∧
    (advanceEnemy c3Enemy).x = JNum.nan := by
  have hz : jq (100 : ℚ) - jq 100 = jq 0 := by rw [jq_sub]; norm_num
  have hz0 : jq (0 : ℚ) - jq 0 = jq 0 := by rw [jq_sub]; norm_num
  have hdist : JNum.sqrtJ (jq 0 * jq 0 + jq 0 * jq 0) = jq 0 := by
    rw [jq_mul, jq_add]; norm_num [sqrtJ_zero]
  have hdiv : jq (4 / 5 : ℚ) / jq 0 = JNum.inf := jq_div_zero (4 / 5) (by norm_num)
  refine ⟨?_, ?_, ?_⟩
  · simp only [enemyDist, c3Enemy, hz, hz0, hdist]
  · simp only [advanceEnemy, c3Enemy, hz, hz0, hdist, hdiv, jq_add_inf]
  · simp only [advanceEnemy, c3Enemy, hz, hz0, hdist, hdiv, jq_add_inf,
               jq_zero_mul_inf, jq_add_nan]

/-- C3 (amended): on a degenerate enemy (target = spawn point, finite
coordinates, positive finite speed, finite progress) the division by the zero
distance is performed and yields +Infinity progress under the JavaScript
number semantics, the transient position computed that tick is NaN, and the
projectile is treated as an immediate impact: it is removed that tick and a
fixed impact explosion is spawned at its target point (deactivating an
x-matching defense as on any impact), so every position stored after the tick
is finite provided the rest of the state is. -/
theorem C3_degenerate_impact (env : Env) (i : ℕ) (a : EAcc) (e : Enemy)
    (ax ay s p : ℚ)
    (hsx : e.startX = jq ax) (hsy : e.startY = jq ay)
    (htx : e.targetX = jq ax) (hty : e.targetY = jq ay)
    (hsp : e.speed = jq s) (hs : 0 < s) (hp : e.progress = jq p) :
    (advanceEnemy e).progress = JNum.inf ∧
    (advanceEnemy e).x = JNum.nan ∧
    stepEnemy env i a e =
      { kept := a.kept,
        explosions := a.explosions ++
          [{ id := env.impactId i, x := e.targetX, y := e.targetY,
             radius := jq 0, maxRadius := jq 30, life := jq 1,
             isRare := false }],
        cities := deactivateFirstCity e.targetX a.cities,
        batteries := deactivateFirstBattery e.targetX a.batteries } := by
  have hzx : jq ax - jq ax = jq 0 := by rw [jq_sub]; norm_num
  have hzy : jq ay - jq ay = jq 0 := by rw [jq_sub]; norm_num
  have hdist : JNum.sqrtJ (jq 0 * jq 0 + jq 0 * jq 0) = jq 0 := by
    rw [jq_mul, jq_add]; norm_num [sqrtJ_zero]
  have hdiv : jq s / jq 0 = JNum.inf := jq_div_zero s hs
  have hprog : (advanceEnemy e).progress = JNum.inf := by
    simp only [advanceEnemy, hsx, hsy, htx, hty, hsp, hp, hzx, hzy, hdist,
               hdiv, jq_add_inf]
  have hxnan : (advanceEnemy e).x = JNum.nan := by
    simp only [advanceEnemy, hsx, hsy, htx, hty, hsp, hp, hzx, hzy, hdist,
               hdiv, jq_add_inf, jq_zero_mul_inf, jq_add_nan]
  refine ⟨hprog, hxnan, ?_⟩
  simp only [stepEnemy, hprog]
  rfl

theorem maxJ_zero_nonneg (x : ℚ) (hx : 0 ≤ x) : JNum.maxJ (jq 0) (jq x) = jq x := by
  rw [jq_maxJ]
  rcases eq_or_lt_of_le hx with h | h
  · rw [if_neg (by rw [← h]; exact lt_irrefl 0), ← h]
  · rw [if_pos h]

-- --- C5: triangular radius profile ---

/-- C5: for a nonnegative maxRadius, the radius derived from life follows the
triangular profile: 0 at life 1, growing linearly (radius equals
`maxRadius * (2 - 2*life)`) as life descends through (0.5, 1], equal to
maxRadius at life 0.5, and shrinking linearly (radius equals
`maxRadius * (2*life)`) on [0, 0.5] down to 0 at life 0. -/
theorem C5_radius_profile (maxR : ℚ) (hR : 0 ≤ maxR) :
    explosionRadius (jq maxR) (jq 1) = jq 0 ∧
    explosionRadius (jq maxR) (jq (1 / 2)) = jq maxR ∧
    explosionRadius (jq maxR) (jq 0) = jq 0 ∧
    (∀ l : ℚ, 1 / 2 < l → l ≤ 1 →
      explosionRadius (jq maxR) (jq l) = jq (maxR * (2 - 2 * l))) ∧
    (∀ l : ℚ, 0 ≤ l → l ≤ 1 / 2 →
      explosionRadius (jq maxR) (jq l) = jq (maxR * (2 * l))) := by
  have grow : ∀ l : ℚ, 1 / 2 < l → l ≤ 1 →
      explosionRadius (jq maxR) (jq l) = jq (maxR * (2 - 2 * l)) := by
    intro l h1 h2
    have hgt : JNum.gt (jq l) (jq (1 / 2)) = true := by
      rw [jq_gt]; exact decide_eq_true h1
    rw [explosionRadius, if_pos hgt]
    rw [jq_sub, jq_mul, jq_sub, jq_mul,
        maxJ_zero_nonneg _ (mul_nonneg hR (by linarith))]
    congr 1
    ring
  have shrink : ∀ l : ℚ, 0 ≤ l → l ≤ 1 / 2 →
      explosionRadius (jq maxR) (jq l) = jq (maxR * (2 * l)) := by
    intro l h1 h2
    have hgt : JNum.gt (jq l) (jq (1 / 2)) = false := by
      rw [jq_gt]; exact decide_eq_false (not_lt.mpr h2)
    rw [explosionRadius, if_neg (by rw [hgt]; exact Bool.false_ne_true)]
    rw [jq_mul, jq_mul, maxJ_zero_nonneg _ (mul_nonneg hR (by linarith))]
    congr 1
    ring
  refine ⟨?_, ?_, ?_, grow, shrink⟩
  · rw [grow 1 (by norm_num) le_rfl]; norm_num
  · rw [shrink (1 / 2) (by norm_num) le_rfl]; norm_num
  · rw [shrink 0 le_rfl (by norm_num)]; norm_num

/-- C5 (witness): the profile instantiated at the source's EXPLOSION_RADIUS. -/
theorem C5_witness :
    explosionRadius (jq 40) (jq 1) = jq 0 ∧
    explosionRadius (jq 40) (jq (1 / 2)) = jq 40 ∧
    explosionRadius (jq 40) (jq 0) = jq 0 ∧
    (∀ l : ℚ, 1 / 2 < l → l ≤ 1 →
      explosionRadius (jq 40) (jq l) = jq (40 * (2 - 2 * l))) ∧
    (∀ l : ℚ, 0 ≤ l → l ≤ 1 / 2 →
      explosionRadius (jq 40) (jq l) = jq (40 * (2 * l))) :=
  C5_radius_profile 40 (by norm_num)

-- --- C8: fire request with no eligible battery is a no-op ---

theorem selGo_of_no_eligible (tx : JNum) :
    ∀ (bs : List Battery) (i : ℕ) (best : Option ℕ) (minD : JNum),
      (∀ b ∈ bs, eligible b = false) → selGo tx i best minD bs = best := by
  intro bs
  induction bs with
  | nil => intro i best minD _; rfl
  | cons b bs ih =>
      intro i best minD hno
      have hb : eligible b = false := hno b (List.mem_cons_self b bs)
      rw [selGo, if_neg (by rw [hb]; exact Bool.false_ne_true)]
      exact ih _ _ _ (fun x hx => hno x (List.mem_cons_of_mem b hx))

/-- C8: a fire request made when no battery is both active and has positive
ammo leaves the whole game state unchanged (entity stores, ammo, active
flags), with no failure signalled. -/
theorem C8_no_battery_noop (env : Env) (tx ty : JNum) (g : Game)
    (hno : ∀ b ∈ g.batteries, eligible b = false) :
    fireMissile env tx ty g = g := by
  have hsel : selectBattery tx g.batteries = none := by
    rw [selectBattery]
    exact selGo_of_no_eligible tx g.batteries 0 none JNum.inf hno
  rw [fireMissile, hsel]
  split
  · rfl
  · split
    · rfl
    · rfl

/-- C8 (witness): firing at a concrete game whose three batteries all have
zero ammo changes nothing. -/
theorem C8_witness : fireMissile trivEnv (jq 100) (jq 50) c8Game = c8Game :=
  C8_no_battery_noop trivEnv (jq 100) (jq 50) c8Game (by
    intro b hb
    simp only [c8Game, List.mem_cons, List.not_mem_nil, or_false] at hb
    rcases hb with rfl | rfl | rfl <;> rfl)

-- --- C6: drone final burst ---

/-- C6: a DRONE interceptor that has reached its target (progress at least 1),
on the tick its hover countdown has reached 0 (or is absent), appends exactly
12 explosions to the store — each full-radius (EXPLOSION_RADIUS), fresh
(life 1, radius 0) and arranged evenly around the drone's position at angles
`(k/12) * PI * 2` with offset 80 — and the missile is consumed on that same
tick (it is not kept), with no other effect on the accumulator. -/
theorem C6_drone_final_burst (env : Env) (w h : JNum) (i : ℕ) (a : MAcc)
    (m : Missile) (htype : m.type = MissileType.DRONE)
    (hlt : JNum.lt m.progress (jq 1) = false)
    (hge : JNum.ge m.progress (jq 1) = true)
    (htimer : m.hoverTimer = some 0 ∨ m.hoverTimer = none) :
    stepMissile env w h i a m =
      { a with explosions := a.explosions ++ droneBurst env i m.x m.y } ∧
    (droneBurst env i m.x m.y).length = 12 ∧
    (∀ k : ℕ, k < 12 →
      (droneBurst env i m.x m.y).get? k = some
        { id := env.finalId i k,
          x := m.x + env.cosv (jq ((k : ℚ) / 12) * env.piv * jq 2) * jq 80,
          y := m.y + env.sinv (jq ((k : ℚ) / 12) * env.piv * jq 2) * jq 80,
          radius := jq 0, maxRadius := jq EXPLOSION_RADIUS, life := jq 1,
          isRare := false }) := by
  have hadv : advanceMissile m = m := by
    rw [advanceMissile, if_neg (by rw [hlt]; exact Bool.false_ne_true)]
  refine ⟨?_, ?_, ?_⟩
  · rw [stepMissile, hadv, if_pos hge, htype]
    rcases htimer with ht | ht
    · rw [ht]
      norm_num
    · rw [ht]
  · simp [droneBurst]
  · intro k hk
    rw [droneBurst, List.get?_map, List.get?_range hk]
    rfl

/-- C6 (witness): the final burst of a concrete hovering drone with expired
countdown. -/
theorem C6_witness :
    stepMissile trivEnv (jq 800) (jq 600) 0 c6Acc c6Missile =
      { c6Acc with explosions :=
          c6Acc.explosions ++ droneBurst trivEnv 0 c6Missile.x c6Missile.y } ∧
    (droneBurst trivEnv 0 c6Missile.x c6Missile.y).length = 12 ∧
    (∀ k : ℕ, k < 12 →
      (droneBurst trivEnv 0 c6Missile.x c6Missile.y).get? k = some
        { id := trivEnv.finalId 0 k,
          x := c6Missile.x +
            trivEnv.cosv (jq ((k : ℚ) / 12) * trivEnv.piv * jq 2) * jq 80,
          y := c6Missile.y +
            trivEnv.sinv (jq ((k : ℚ) / 12) * trivEnv.piv * jq 2) * jq 80,
          radius := jq 0, maxRadius := jq EXPLOSION_RADIUS, life := jq 1,
          isRare := false }) :=
  C6_drone_final_burst trivEnv (jq 800) (jq 600) 0 c6Acc c6Missile rfl
    (by simp [c6Missile, jq_lt]) (by simp [c6Missile, jq_ge]) (Or.inl rfl)

-- --- C2: rare bomb instant clear ---

/-- C2: (i) a RARE interceptor that has reached its target spawns exactly one
screen-wide explosion flagged rare (maxRadius `max(width, height) * 1.5`) and
is consumed; (ii) processing any rare explosion on a tick where its life, after
the per-tick decrement, lies strictly between 0.4 and 0.6 — in particular the
tick it passes through 0.5 — removes every enemy projectile live at that
moment and increases the score by exactly 20 times their number. -/
theorem C2_rare_clear (env : Env) :
    (∀ (w h : JNum) (i : ℕ) (a : MAcc) (m : Missile),
      m.type = MissileType.RARE →
      JNum.lt m.progress (jq 1) = false →
      JNum.ge m.progress (jq 1) = true →
      stepMissile env w h i a m =
        { a with explosions := a.explosions ++
            [{ id := env.rareId i, x := m.x, y := m.y, radius := jq 0,
               maxRadius := JNum.maxJ w h * jq (3 / 2), life := jq 1,
               isRare := true }] }) ∧
    (∀ (i : ℕ) (a : XAcc) (exp : Explosion) (l : ℚ),
      exp.isRare = true → exp.life = jq l →
      2 / 5 < l - 1 / 60 → l - 1 / 60 < 3 / 5 →
      (stepExplosion env i a exp).enemies = [] ∧
      (stepExplosion env i a exp).score =
        a.score + 20 * (a.enemies.length : ℤ)) := by
  constructor
  · intro w h i a m htype hlt hge
    have hadv : advanceMissile m = m := by
      rw [advanceMissile, if_neg (by rw [hlt]; exact Bool.false_ne_true)]
    rw [stepMissile, hadv, if_pos hge, htype]
  · intro i a exp l hr hl h1 h2
    have hl2 : exp.life - jq (1 / EXPLOSION_DURATION) = jq (l - 1 / 60) := by
      rw [hl, EXPLOSION_DURATION, jq_sub]
    have hcond : (exp.isRare &&
        JNum.lt (exp.life - jq (1 / EXPLOSION_DURATION)) (jq (3 / 5)) &&
        JNum.gt (exp.life - jq (1 / EXPLOSION_DURATION)) (jq (2 / 5))) = true := by
      rw [hl2, hr, jq_lt, jq_gt, decide_eq_true h2, decide_eq_true h1]
      rfl
    have hres :
        (stepExplosion env i a exp).enemies = [] ∧
        (stepExplosion env i a exp).score =
          a.score + 20 * (a.enemies.length : ℤ) := by
      rw [stepExplosion]
      simp only [hcond, if_true, Bool.and_self]
      by_cases hlen : 0 < a.enemies.length
      · rw [if_pos hlen]
        exact ⟨rfl, by simp [proxSweep]⟩
      · have hnil : a.enemies = [] :=
          List.length_eq_zero.mp (Nat.eq_zero_of_not_pos hlen)
        rw [if_neg hlen]
        constructor
        · simp [hnil, proxSweep]
        · simp [hnil, proxSweep]
    exact hres

/-- C2 (witness): a concrete rare explosion on the tick its life passes
through 0.5 clears both live enemies and adds 40 points. -/
theorem C2_witness :
    (stepExplosion trivEnv 0 c2Acc c2Exp).enemies = [] ∧
    (stepExplosion trivEnv 0 c2Acc c2Exp).score =
      c2Acc.score + 20 * (c2Acc.enemies.length : ℤ) :=
  (C2_rare_clear trivEnv).2 0 c2Acc c2Exp (31 / 60) rfl rfl (by norm_num)
    (by norm_num)

-- --- Shared helpers about enemy impacts ---

theorem stepEnemy_impact (env : Env) (i : ℕ) (a : EAcc) (e : Enemy)
    (hge : JNum.ge (advanceEnemy e).progress (jq 1) = true) :
    stepEnemy env i a e =
      { kept := a.kept,
        explosions := a.explosions ++
          [{ id := env.impactId i, x := e.targetX, y := e.targetY,
             radius := jq 0, maxRadius := jq 30, life := jq 1,
             isRare := false }],
        cities := deactivateFirstCity e.targetX a.cities,
        batteries := deactivateFirstBattery e.targetX a.batteries } := by
  rw [stepEnemy, if_pos hge]

theorem stepEnemy_keep (env : Env) (i : ℕ) (a : EAcc) (e : Enemy)
    (hge : JNum.ge (advanceEnemy e).progress (jq 1) = false) :
    stepEnemy env i a e = { a with kept := a.kept ++ [advanceEnemy e] } := by
  rw [stepEnemy, if_neg (by rw [hge]; exact Bool.false_ne_true)]

theorem advanceEnemy_fin (e : Enemy) (sx sy tx2 ty2 s p d : ℚ)
    (hsx : e.startX = jq sx) (hsy : e.startY = jq sy)
    (htx : e.targetX = jq tx2) (hty : e.targetY = jq ty2)
    (hsp : e.speed = jq s) (hp : e.progress = jq p)
    (hd : 0 ≤ d) (hdne : d ≠ 0)
    (hdd : (tx2 - sx) * (tx2 - sx) + (ty2 - sy) * (ty2 - sy) = d * d) :
    advanceEnemy e = { e with
      progress := jq (p + s / d),
      x := jq (sx + (tx2 - sx) * (p + s / d)),
      y := jq (sy + (ty2 - sy) * (p + s / d)) } := by
  have hdist : JNum.sqrtJ ((e.targetX - e.startX) * (e.targetX - e.startX) +
      (e.targetY - e.startY) * (e.targetY - e.startY)) = jq d := by
    rw [htx, hsx, hty, hsy, jq_sub, jq_sub, jq_mul, jq_mul, jq_add, hdd]
    exact sqrtJ_mul_self d hd
  rw [advanceEnemy]
  rw [hdist, hsp, hp, jq_div s d hdne, jq_add, hsx, hsy, htx, hty, jq_sub,
      jq_sub, jq_mul, jq_mul, jq_add, jq_add]

-- --- Characterization of the first-match deactivation ---

theorem dfc_of_no_hit (tx : JNum) :
    ∀ cs : List City, (∀ c ∈ cs, cityHit tx c = false) →
      deactivateFirstCity tx cs = cs := by
  intro cs
  induction cs with
  | nil => intro _; rfl
  | cons c cs ih =>
      intro hno
      rw [deactivateFirstCity,
          if_neg (by rw [hno c (List.mem_cons_self c cs)]
                     exact Bool.false_ne_true),
          ih (fun x hx => hno x (List.mem_cons_of_mem c hx))]

theorem dfb_of_no_hit (tx : JNum) :
    ∀ bs : List Battery, (∀ b ∈ bs, batteryHit tx b = false) →
      deactivateFirstBattery tx bs = bs := by
  intro bs
  induction bs with
  | nil => intro _; rfl
  | cons b bs ih =>
      intro hno
      rw [deactivateFirstBattery,
          if_neg (by rw [hno b (List.mem_cons_self b bs)]
                     exact Bool.false_ne_true),
          ih (fun x hx => hno x (List.mem_cons_of_mem b hx))]

theorem dfc_first_hit (tx : JNum) :
    ∀ (cs : List City) (i : ℕ) (c : City), cs.get? i = some c →
      cityHit tx c = true →
      (∀ j cj, j < i → cs.get? j = some cj → cityHit tx cj = false) →
      deactivateFirstCity tx cs = cs.set i { c with active := false } := by
  intro cs
  induction cs with
  | nil => intro i c hget _ _; simp at hget
  | cons chd cs ih =>
      intro i c hget hhit hbefore
      cases i with
      | zero =>
          have hc : chd = c := by simpa using hget
          subst hc
          rw [deactivateFirstCity, if_pos hhit]
          rfl
      | succ n =>
          have hhd : cityHit tx chd = false := hbefore 0 chd (Nat.succ_pos n) rfl
          rw [deactivateFirstCity, if_neg (by rw [hhd]; exact Bool.false_ne_true),
              ih n c (by simpa using hget) hhit
                (fun j cj hj hg => hbefore (j + 1) cj (Nat.succ_lt_succ hj)
                  (by simpa using hg))]
          rfl

theorem dfb_first_hit (tx : JNum) :
    ∀ (bs : List Battery) (i : ℕ) (b : Battery), bs.get? i = some b →
      batteryHit tx b = true →
      (∀ j bj, j < i → bs.get? j = some bj → batteryHit tx bj = false) →
      deactivateFirstBattery tx bs = bs.set i { b with active := false } := by
  intro bs
  induction bs with
  | nil => intro i b hget _ _; simp at hget
  | cons bhd bs ih =>
      intro i b hget hhit hbefore
      cases i with
      | zero =>
          have hb : bhd = b := by simpa using hget
          subst hb
          rw [deactivateFirstBattery, if_pos hhit]
          rfl
      | succ n =>
          have hhd : batteryHit tx bhd = false := hbefore 0 bhd (Nat.succ_pos n) rfl
          rw [deactivateFirstBattery,
              if_neg (by rw [hhd]; exact Bool.false_ne_true),
              ih n b (by simpa using hget) hhit
                (fun j bj hj hg => hbefore (j + 1) bj (Nat.succ_lt_succ hj)
                  (by simpa using hg))]
          rfl

-- --- C4: impact resolution and defense deactivation ---

/-- C4 (counterexample): the enemy in `c4Game` impacts the target point
(100, 0); the game's only city sits at (100, 500) — its Euclidean distance
from the target point is 500, far outside the 5-unit tolerance — yet the tick
deactivates it, because the match is on the x-coordinate alone.  This refutes
the claim that only a city or battery whose position matches the target point
within about 5 units is deactivated while every other one is left untouched. -/
theorem C4_counterexample :
    (enemyPhase trivEnv c4Game).cities =
      [{ id := "c", x := jq 100, y := jq 500, active := false }] ∧
    JNum.lt (JNum.sqrtJ ((jq 100 - jq 100) * (jq 100 - jq 100) +
      (jq 500 - jq 0) * (jq 500 - jq 0))) (jq 5) = false := by
  constructor
  · have hadv := advanceEnemy_fin c4Enemy 100 (-3) 100 0 3 (1 / 2) 3 rfl rfl rfl
      rfl rfl rfl (by norm_num) (by norm_num) (by norm_num)
    have hge : JNum.ge (advanceEnemy c4Enemy).progress (jq 1) = true := by
      simp only [hadv]
      rw [jq_ge]
      exact decide_eq_true (by norm_num)
    have hstep := stepEnemy_impact trivEnv 0
      { kept := [], explosions := c4Game.explosions, cities := c4Game.cities,
        batteries := c4Game.batteries } c4Enemy hge
    have hhit : cityHit (jq 100)
        { id := "c", x := jq 100, y := jq 500, active := true } = true := by
      rw [cityHit, jq_sub]
      norm_num [jq_jabs, jq_lt]
    rw [enemyPhase]
    show (runEnemies trivEnv 0 _ c4Game.enemies).cities = _
    rw [show c4Game.enemies = [c4Enemy] from rfl, runEnemies, runEnemies, hstep]
    show deactivateFirstCity c4Enemy.targetX c4Game.cities = _
    rw [show c4Enemy.targetX = jq 100 from rfl,
        show c4Game.cities =
          [{ id := "c", x := jq 100, y := jq 500, active := true }] from rfl,
        deactivateFirstCity, if_pos hhit]
  · have h5 : (250000 : ℚ) = 500 * 500 := by norm_num
    rw [jq_sub, jq_sub, jq_mul, jq_mul, jq_add]
    norm_num
    rw [h5, sqrtJ_mul_self 500 (by norm_num), jq_lt]
    exact decide_eq_false (by norm_num)

/-- C4 (amended): on the tick an enemy projectile's progress reaches or
exceeds 1 it is removed and a fixed impact explosion (maxRadius 30, life 1) is
spawned at its target point; the match used to deactivate defenses compares
x-coordinates only (`|x - targetX| < 5`, the y-coordinate is ignored), and
only the first matching city and the first matching battery in store order are
deactivated (only their active flag changes); every city and battery without
an x-match — and every one after the first match — is left untouched. -/
theorem C4_impact_deactivation (env : Env) (g : Game) (e : Enemy)
    (hes : g.enemies = [e])
    (hge : JNum.ge (advanceEnemy e).progress (jq 1) = true) :
    enemyPhase env g = { g with
      enemies := [],
      explosions := g.explosions ++
        [{ id := env.impactId 0, x := e.targetX, y := e.targetY,
           radius := jq 0, maxRadius := jq 30, life := jq 1,
           isRare := false }],
      cities := deactivateFirstCity e.targetX g.cities,
      batteries := deactivateFirstBattery e.targetX g.batteries } ∧
    (∀ (tx : JNum) (cs : List City),
      (∀ c ∈ cs, cityHit tx c = false) → deactivateFirstCity tx cs = cs) ∧
    (∀ (tx : JNum) (cs : List City) (i : ℕ) (c : City),
      cs.get? i = some c → cityHit tx c = true →
      (∀ j cj, j < i → cs.get? j = some cj → cityHit tx cj = false) →
      deactivateFirstCity tx cs = cs.set i { c with active := false }) ∧
    (∀ (tx : JNum) (bs : List Battery),
      (∀ b ∈ bs, batteryHit tx b = false) → deactivateFirstBattery tx bs = bs) ∧
    (∀ (tx : JNum) (bs : List Battery) (i : ℕ) (b : Battery),
      bs.get? i = some b → batteryHit tx b = true →
      (∀ j bj, j < i → bs.get? j = some bj → batteryHit tx bj = false) →
      deactivateFirstBattery tx bs = bs.set i { b with active := false }) := by
  refine ⟨?_, fun tx cs => dfc_of_no_hit tx cs,
          fun tx cs => dfc_first_hit tx cs,
          fun tx bs => dfb_of_no_hit tx bs,
          fun tx bs => dfb_first_hit tx bs⟩
  rw [enemyPhase, hes]
  rw [runEnemies, runEnemies, stepEnemy_impact env 0 _ e hge]

/-- C4 (witness): the amended impact behavior instantiated on the concrete
game `c4Game`. -/
theorem C4_witness :
    enemyPhase trivEnv c4Game = { c4Game with
      enemies := [],
      explosions := c4Game.explosions ++
        [{ id := trivEnv.impactId 0, x := c4Enemy.targetX, y := c4Enemy.targetY,
           radius := jq 0, maxRadius := jq 30, life := jq 1,
           isRare := false }],
      cities := deactivateFirstCity c4Enemy.targetX c4Game.cities,
      batteries := deactivateFirstBattery c4Enemy.targetX c4Game.batteries } ∧
    (∀ (tx : JNum) (cs : List City),
      (∀ c ∈ cs, cityHit tx c = false) → deactivateFirstCity tx cs = cs) ∧
    (∀ (tx : JNum) (cs : List City) (i : ℕ) (c : City),
      cs.get? i = some c → cityHit tx c = true →
      (∀ j cj, j < i → cs.get? j = some cj → cityHit tx cj = false) →
      deactivateFirstCity tx cs = cs.set i { c with active := false }) ∧
    (∀ (tx : JNum) (bs : List Battery),
      (∀ b ∈ bs, batteryHit tx b = false) → deactivateFirstBattery tx bs = bs) ∧
    (∀ (tx : JNum) (bs : List Battery) (i : ℕ) (b : Battery),
      bs.get? i = some b → batteryHit tx b = true →
      (∀ j bj, j < i → bs.get? j = some bj → batteryHit tx bj = false) →
      deactivateFirstBattery tx bs = bs.set i { b with active := false }) :=
  C4_impact_deactivation trivEnv c4Game c4Enemy rfl (by
    have hadv := advanceEnemy_fin c4Enemy 100 (-3) 100 0 3 (1 / 2) 3 rfl rfl rfl
      rfl rfl rfl (by norm_num) (by norm_num) (by norm_num)
    simp only [hadv]
    rw [jq_ge]
    exact decide_eq_true (by norm_num))

/-- C3 (witness): the degenerate-impact behavior instantiated on the concrete
enemy `c3Enemy`. -/
theorem C3_witness :
    (advanceEnemy c3Enemy).progress = JNum.inf ∧
    (advanceEnemy c3Enemy).x = JNum.nan ∧
    stepEnemy trivEnv 0 c3Acc c3Enemy =
      { kept := c3Acc.kept,
        explosions := c3Acc.explosions ++
          [{ id := trivEnv.impactId 0, x := c3Enemy.targetX,
             y := c3Enemy.targetY, radius := jq 0, maxRadius := jq 30,
             life := jq 1, isRare := false }],
        cities := deactivateFirstCity c3Enemy.targetX c3Acc.cities,
        batteries := deactivateFirstBattery c3Enemy.targetX c3Acc.batteries } :=
  C3_degenerate_impact trivEnv 0 c3Acc c3Enemy 100 0 (4 / 5) 0 rfl rfl rfl rfl
    rfl (by norm_num) rfl

-- --- C7: battery selection ---

theorem isFinite_iff (x : JNum) : x.isFinite = true ↔ ∃ q : ℚ, x = jq q := by
  cases x <;> simp [JNum.isFinite, jq]

theorem selGo_spec (tx : JNum) (bats : List Battery)
    (hfin : ∀ b ∈ bats, (bdist tx b).isFinite = true) :
    ∀ (bs pre : List Battery) (best : Option ℕ) (minD : JNum),
      bats = pre ++ bs →
      ((best = none ∧ minD = JNum.inf ∧
        (∀ j bj, j < pre.length → bats.get? j = some bj → eligible bj = false))
       ∨ (∃ k bk, best = some k ∧ k < pre.length ∧ bats.get? k = some bk ∧
            eligible bk = true ∧ minD = bdist tx bk ∧
            (∀ j bj, j < pre.length → bats.get? j = some bj →
              eligible bj = true →
              JNum.le minD (bdist tx bj) = true ∧
              (j < k → JNum.lt minD (bdist tx bj) = true)))) →
      ((selGo tx pre.length best minD bs = none ∧
        ∀ j bj, bats.get? j = some bj → eligible bj = false)
       ∨ (∃ k bk, selGo tx pre.length best minD bs = some k ∧
            bats.get? k = some bk ∧ eligible bk = true ∧
            (∀ j bj, bats.get? j = some bj → eligible bj = true →
              JNum.le (bdist tx bk) (bdist tx bj) = true ∧
              (j < k → JNum.lt (bdist tx bk) (bdist tx bj) = true)))) := by
  intro bs
  induction bs with
  | nil =>
      intro pre best minD hbats hacc
      have hpre : pre = bats := by rw [hbats, List.append_nil]
      rw [selGo]
      rcases hacc with ⟨hb, _, hall⟩ | ⟨k, bk, hb, _, hget, helig, hm, hmin⟩
      · left
        refine ⟨hb, fun j bj hj => ?_⟩
        obtain ⟨hjlt, _⟩ := List.get?_eq_some.mp hj
        exact hall j bj (by rw [hpre]; exact hjlt) hj
      · right
        refine ⟨k, bk, hb, hget, helig, fun j bj hj he => ?_⟩
        obtain ⟨hjlt, _⟩ := List.get?_eq_some.mp hj
        have := hmin j bj (by rw [hpre]; exact hjlt) hj he
        rw [hm] at this
        exact this
  | cons b rest ih =>
      intro pre best minD hbats hacc
      have hgetn : bats.get? pre.length = some b := by
        rw [hbats, List.get?_append_right le_rfl]
        simp
      have hbmem : b ∈ bats := by
        rw [hbats]
        exact List.mem_append_right _ (List.mem_cons_self _ _)
      obtain ⟨qb, hqb⟩ := (isFinite_iff _).mp (hfin b hbmem)
      have hbats2 : bats = (pre ++ [b]) ++ rest := by rw [hbats]; simp
      have hlen2 : (pre ++ [b]).length = pre.length + 1 := by simp
      rw [selGo]
      by_cases he : eligible b = true
      · rw [if_pos he]
        show ((if JNum.lt (bdist tx b) minD = true then
            selGo tx (pre.length + 1) (some pre.length) (bdist tx b) rest
          else selGo tx (pre.length + 1) best minD rest) = none ∧ _) ∨ _
        by_cases hcmp : JNum.lt (bdist tx b) minD = true
        · rw [if_pos hcmp]
          have hnew :
              ((some pre.length : Option ℕ) = none ∧ bdist tx b = JNum.inf ∧
                (∀ j bj, j < (pre ++ [b]).length → bats.get? j = some bj →
                  eligible bj = false))
              ∨ (∃ k bk, (some pre.length : Option ℕ) = some k ∧
                  k < (pre ++ [b]).length ∧ bats.get? k = some bk ∧
                  eligible bk = true ∧ bdist tx b = bdist tx bk ∧
                  (∀ j bj, j < (pre ++ [b]).length → bats.get? j = some bj →
                    eligible bj = true →
                    JNum.le (bdist tx b) (bdist tx bj) = true ∧
                    (j < k → JNum.lt (bdist tx b) (bdist tx bj) = true))) := by
            right
            refine ⟨pre.length, b, rfl, by rw [hlen2]; omega, hgetn, he, rfl,
              fun j bj hj hgj hej => ?_⟩
            rw [hlen2] at hj
            rcases Nat.lt_succ_iff_lt_or_eq.mp hj with hjlt | hjeq
            · rcases hacc with ⟨_, hminf, hall⟩ | ⟨k0, bk0, _, hk0, hget0, _, hm0, hmin0⟩
              · exact absurd (hall j bj hjlt hgj) (by rw [hej]; simp)
              · obtain ⟨qm, hqm⟩ := (isFinite_iff _).mp
                  (hfin bk0 (List.get?_mem hget0))
                obtain ⟨qj, hqj⟩ := (isFinite_iff _).mp
                  (hfin bj (List.get?_mem hgj))
                have h1 := (hmin0 j bj hjlt hgj hej).1
                rw [hm0, hqm, hqj, jq_le] at h1
                have h1q : qm ≤ qj := of_decide_eq_true h1
                rw [hm0, hqm, hqb, jq_lt] at hcmp
                have h2q : qb < qm := of_decide_eq_true hcmp
                constructor
                · rw [hqb, hqj, jq_le]
                  exact decide_eq_true (by linarith)
                · intro _
                  rw [hqb, hqj, jq_lt]
                  exact decide_eq_true (by linarith)
            · subst hjeq
              have hbj : bj = b := by
                rw [hgetn] at hgj
                exact (Option.some.inj hgj).symm
              subst hbj
              refine ⟨by rw [hqb, jq_le]; exact decide_eq_true le_rfl, ?_⟩
              intro hlt
              exact absurd hlt (lt_irrefl _)
          have hres := ih (pre ++ [b]) (some pre.length) (bdist tx b) hbats2 hnew
          rw [hlen2] at hres
          exact hres
        · rw [if_neg hcmp]
          rcases hacc with ⟨hbnone, hminf, hall⟩ |
            ⟨k0, bk0, hbsome, hk0, hget0, helig0, hm0, hmin0⟩
          · exfalso
            exact hcmp (by rw [hqb, hminf]; rfl)
          · have hnew :
                (best = none ∧ minD = JNum.inf ∧
                  (∀ j bj, j < (pre ++ [b]).length → bats.get? j = some bj →
                    eligible bj = false))
                ∨ (∃ k bk, best = some k ∧ k < (pre ++ [b]).length ∧
                    bats.get? k = some bk ∧ eligible bk = true ∧
                    minD = bdist tx bk ∧
                    (∀ j bj, j < (pre ++ [b]).length → bats.get? j = some bj →
                      eligible bj = true →
                      JNum.le minD (bdist tx bj) = true ∧
                      (j < k → JNum.lt minD (bdist tx bj) = true))) := by
              right
              refine ⟨k0, bk0, hbsome, by rw [hlen2]; omega, hget0, helig0, hm0,
                fun j bj hj hgj hej => ?_⟩
              rw [hlen2] at hj
              rcases Nat.lt_succ_iff_lt_or_eq.mp hj with hjlt | hjeq
              · exact hmin0 j bj hjlt hgj hej
              · subst hjeq
                have hbj : bj = b := by
                  rw [hgetn] at hgj
                  exact (Option.some.inj hgj).symm
                subst hbj
                obtain ⟨qm, hqm⟩ := (isFinite_iff _).mp
                  (hfin bk0 (List.get?_mem hget0))
                have hq : ¬ qb < qm := by
                  intro hq
                  exact hcmp (by rw [hqb, hm0, hqm, jq_lt]
                                 exact decide_eq_true hq)
                refine ⟨by rw [hm0, hqm, hqb, jq_le]
                           exact decide_eq_true (by linarith), ?_⟩
                intro hjk
                omega
            have hres := ih (pre ++ [b]) best minD hbats2 hnew
            rw [hlen2] at hres
            exact hres
      · have he' : eligible b = false := by
          revert he
          cases eligible b <;> simp
        rw [if_neg he]
        have hnew :
            (best = none ∧ minD = JNum.inf ∧
              (∀ j bj, j < (pre ++ [b]).length → bats.get? j = some bj →
                eligible bj = false))
            ∨ (∃ k bk, best = some k ∧ k < (pre ++ [b]).length ∧
                bats.get? k = some bk ∧ eligible bk = true ∧
                minD = bdist tx bk ∧
                (∀ j bj, j < (pre ++ [b]).length → bats.get? j = some bj →
                  eligible bj = true →
                  JNum.le minD (bdist tx bj) = true ∧
                  (j < k → JNum.lt minD (bdist tx bj) = true))) := by
          rcases hacc with ⟨hbnone, hminf, hall⟩ |
            ⟨k0, bk0, hbsome, hk0, hget0, helig0, hm0, hmin0⟩
          · left
            refine ⟨hbnone, hminf, fun j bj hj hgj => ?_⟩
            rw [hlen2] at hj
            rcases Nat.lt_succ_iff_lt_or_eq.mp hj with hjlt | hjeq
            · exact hall j bj hjlt hgj
            · subst hjeq
              have hbj : bj = b := by
                rw [hgetn] at hgj
                exact (Option.some.inj hgj).symm
              subst hbj
              exact he'
          · right
            refine ⟨k0, bk0, hbsome, by rw [hlen2]; omega, hget0, helig0, hm0,
              fun j bj hj hgj hej => ?_⟩
            rw [hlen2] at hj
            rcases Nat.lt_succ_iff_lt_or_eq.mp hj with hjlt | hjeq
            · exact hmin0 j bj hjlt hgj hej
            · subst hjeq
              have hbj : bj = b := by
                rw [hgetn] at hgj
                exact (Option.some.inj hgj).symm
              subst hbj
              exact absurd hej (by rw [he']; simp)
        have hres := ih (pre ++ [b]) best minD hbats2 hnew
        rw [hlen2] at hres
        exact hres

/-- C7: while PLAYING and unpaused, with finite coordinates and at least one
active battery with ammo, the fire request selects the eligible battery whose
horizontal distance `|battery.x - targetX|` is minimal (strictly smaller than
every eligible battery before it in iteration order, so the first encountered
wins ties), decrements exactly that battery's ammo by 1, and appends exactly
one interceptor starting at that battery's position with progress 0. -/
theorem C7_fire_selection (env : Env) (tx ty : JNum) (g : Game)
    (hplay : g.gameState = GState.PLAYING) (hpause : g.isPaused = false)
    (hfin : ∀ b ∈ g.batteries, (bdist tx b).isFinite = true)
    (helig : ∃ b ∈ g.batteries, eligible b = true) :
    ∃ k bk, selectBattery tx g.batteries = some k ∧
      g.batteries.get? k = some bk ∧ eligible bk = true ∧
      (∀ j bj, g.batteries.get? j = some bj → eligible bj = true →
        JNum.le (bdist tx bk) (bdist tx bj) = true ∧
        (j < k → JNum.lt (bdist tx bk) (bdist tx bj) = true)) ∧
      fireMissile env tx ty g = { g with
        batteries := g.batteries.set k { bk with ammo := bk.ammo - 1 },
        missiles := g.missiles ++
          [{ id := env.fireId, startX := bk.x, startY := bk.y, targetX := tx,
             targetY := ty, x := bk.x, y := bk.y, progress := jq 0,
             type := rollType env.fireRoll,
             hoverTimer := some
               (if rollType env.fireRoll = MissileType.DRONE then 180
                else 0) }] } := by
  have hspec := selGo_spec tx g.batteries hfin g.batteries [] none JNum.inf
    (by simp) (Or.inl ⟨rfl, rfl, fun j bj hj _ => absurd hj (by simp)⟩)
  rcases hspec with ⟨_, hall⟩ | ⟨k, bk, hsel, hget, helig2, hmin⟩
  · exfalso
    obtain ⟨b, hb, he⟩ := helig
    obtain ⟨j, hj⟩ := List.get?_of_mem hb
    exact absurd (hall j b hj) (by rw [he]; simp)
  · have hsel' : selectBattery tx g.batteries = some k := by
      rw [selectBattery]
      exact hsel
    refine ⟨k, bk, hsel', hget, helig2, hmin, ?_⟩
    rw [fireMissile, if_neg (by rw [hplay]; simp),
        if_neg (by rw [hpause]; simp), hsel']
    simp only [hget]

/-- C7 (witness): firing at x = 100 on the fresh three-battery game selects
an eligible battery of minimal horizontal distance (the left one), decrements
its ammo and appends one interceptor at its position. -/
theorem C7_witness :
    ∃ k bk, selectBattery (jq 100) c7Game.batteries = some k ∧
      c7Game.batteries.get? k = some bk ∧ eligible bk = true ∧
      (∀ j bj, c7Game.batteries.get? j = some bj → eligible bj = true →
        JNum.le (bdist (jq 100) bk) (bdist (jq 100) bj) = true ∧
        (j < k → JNum.lt (bdist (jq 100) bk) (bdist (jq 100) bj) = true)) ∧
      fireMissile trivEnv (jq 100) (jq 50) c7Game = { c7Game with
        batteries := c7Game.batteries.set k { bk with ammo := bk.ammo - 1 },
        missiles := c7Game.missiles ++
          [{ id := trivEnv.fireId, startX := bk.x, startY := bk.y,
             targetX := jq 100, targetY := jq 50, x := bk.x, y := bk.y,
             progress := jq 0, type := rollType trivEnv.fireRoll,
             hoverTimer := some
               (if rollType trivEnv.fireRoll = MissileType.DRONE then 180
                else 0) }] } :=
  C7_fire_selection trivEnv (jq 100) (jq 50) c7Game rfl rfl
    (by
      intro b hb
      simp only [c7Game, List.mem_cons, List.not_mem_nil, or_false] at hb
      rcases hb with rfl | rfl | rfl <;> rfl)
    ⟨{ id := "left", x := jq 40, y := jq 550, active := true, ammo := 20,
       maxAmmo := 20 }, List.mem_cons_self _ _, rfl⟩

-- --- Frame and score lemmas for the tick phases ---

theorem spawnPhase_frame (env : Env) (g : Game) :
    (spawnPhase env g).score = g.score ∧
    (spawnPhase env g).gameState = g.gameState ∧
    (spawnPhase env g).isPaused = g.isPaused ∧
    (spawnPhase env g).cities = g.cities ∧
    (spawnPhase env g).batteries = g.batteries ∧
    (spawnPhase env g).missiles = g.missiles ∧
    (spawnPhase env g).explosions = g.explosions ∧
    (spawnPhase env g).particles = g.particles ∧
    (spawnPhase env g).width = g.width ∧
    (spawnPhase env g).height = g.height := by
  rw [spawnPhase, spawnEnemy]
  split
  · split
    · exact ⟨rfl, rfl, rfl, rfl, rfl, rfl, rfl, rfl, rfl, rfl⟩
    · exact ⟨rfl, rfl, rfl, rfl, rfl, rfl, rfl, rfl, rfl, rfl⟩
  · exact ⟨rfl, rfl, rfl, rfl, rfl, rfl, rfl, rfl, rfl, rfl⟩

theorem enemyPhase_frame (env : Env) (g : Game) :
    (enemyPhase env g).score = g.score ∧
    (enemyPhase env g).gameState = g.gameState ∧
    (enemyPhase env g).isPaused = g.isPaused ∧
    (enemyPhase env g).missiles = g.missiles ∧
    (enemyPhase env g).particles = g.particles ∧
    (enemyPhase env g).width = g.width ∧
    (enemyPhase env g).height = g.height :=
  ⟨rfl, rfl, rfl, rfl, rfl, rfl, rfl⟩

theorem missilePhase_frame (env : Env) (g : Game) :
    (missilePhase env g).cities = g.cities ∧
    (missilePhase env g).batteries = g.batteries ∧
    (missilePhase env g).particles = g.particles ∧
    (missilePhase env g).gameState = g.gameState ∧
    (missilePhase env g).isPaused = g.isPaused ∧
    (missilePhase env g).width = g.width ∧
    (missilePhase env g).height = g.height :=
  ⟨rfl, rfl, rfl, rfl, rfl, rfl, rfl⟩

theorem explosionPhase_frame (env : Env) (g : Game) :
    (explosionPhase env g).cities = g.cities ∧
    (explosionPhase env g).batteries = g.batteries ∧
    (explosionPhase env g).missiles = g.missiles ∧
    (explosionPhase env g).gameState = g.gameState ∧
    (explosionPhase env g).isPaused = g.isPaused ∧
    (explosionPhase env g).width = g.width ∧
    (explosionPhase env g).height = g.height :=
  ⟨rfl, rfl, rfl, rfl, rfl, rfl, rfl⟩

theorem particlePhase_frame (g : Game) :
    (particlePhase g).score = g.score ∧
    (particlePhase g).gameState = g.gameState ∧
    (particlePhase g).isPaused = g.isPaused ∧
    (particlePhase g).cities = g.cities ∧
    (particlePhase g).batteries = g.batteries ∧
    (particlePhase g).missiles = g.missiles ∧
    (particlePhase g).explosions = g.explosions ∧
    (particlePhase g).enemies = g.enemies :=
  ⟨rfl, rfl, rfl, rfl, rfl, rfl, rfl, rfl⟩

theorem runLightning_score (env : Env) (mi : ℕ) :
    ∀ (nearby : List Enemy) (j : ℕ) (st : List Enemy × List Explosion × ℤ),
      ∃ n : ℕ, (runLightning env mi j st nearby).2.2 = st.2.2 + 20 * n := by
  intro nearby
  induction nearby with
  | nil => intro j st; exact ⟨0, by simp [runLightning]⟩
  | cons e rest ih =>
      intro j st
      obtain ⟨ens, exps, sc⟩ := st
      rw [runLightning]
      split
      · obtain ⟨n, hn⟩ := ih (j + 1)
          (ens.filter (fun en => en.id ≠ e.id),
           exps ++ [{ id := env.lightId mi j, x := e.x, y := e.y, radius := jq 0,
                      maxRadius := jq 20, life := jq (1 / 2), isRare := false }],
           sc + 20)
        refine ⟨n + 1, ?_⟩
        rw [hn]
        push_cast
        ring
      · obtain ⟨n, hn⟩ := ih (j + 1) (ens, exps, sc)
        exact ⟨n, hn⟩

theorem stepMissile_score (env : Env) (w h : JNum) (i : ℕ) (a : MAcc)
    (m : Missile) :
    ∃ n : ℕ, (stepMissile env w h i a m).score = a.score + 20 * n := by
  simp only [stepMissile]
  split
  · split
    · split
      · split
        · exact ⟨0, by simp⟩
        · exact ⟨0, by simp⟩
      · exact ⟨0, by simp⟩
    · exact ⟨0, by simp⟩
    · obtain ⟨n, hn⟩ := runLightning_score env i
        (nearFilter (advanceMissile m).x (advanceMissile m).y a.enemies) 0
        (a.enemies, a.explosions, a.score)
      exact ⟨n, hn⟩
    · exact ⟨0, by simp⟩
  · exact ⟨0, by simp⟩

theorem runMissiles_score (env : Env) (w h : JNum) :
    ∀ (ms : List Missile) (i : ℕ) (a : MAcc),
      ∃ n : ℕ, (runMissiles env w h i a ms).score = a.score + 20 * n := by
  intro ms
  induction ms with
  | nil => intro i a; exact ⟨0, by simp [runMissiles]⟩
  | cons m ms ih =>
      intro i a
      obtain ⟨n1, h1⟩ := stepMissile_score env w h i a m
      obtain ⟨n2, h2⟩ := ih (i + 1) (stepMissile env w h i a m)
      refine ⟨n1 + n2, ?_⟩
      rw [runMissiles, h2, h1]
      push_cast
      ring

theorem missilePhase_score (env : Env) (g : Game) :
    ∃ n : ℕ, (missilePhase env g).score = g.score + 20 * n := by
  obtain ⟨n, hn⟩ := runMissiles_score env g.width g.height g.missiles 0
    { kept := [], enemies := g.enemies, explosions := g.explosions,
      score := g.score }
  exact ⟨n, hn⟩

theorem proxSweep_score (cx cy r : JNum) :
    ∀ es : List Enemy, ∃ n : ℕ, (proxSweep cx cy r es).2 = 20 * n := by
  intro es
  induction es with
  | nil => exact ⟨0, by simp [proxSweep]⟩
  | cons e rest ih =>
      obtain ⟨n, hn⟩ := ih
      rw [proxSweep]
      split
      · refine ⟨n + 1, ?_⟩
        simp only [hn]
        push_cast
        ring
      · exact ⟨n, hn⟩

theorem stepExplosion_score (env : Env) (i : ℕ) (a : XAcc) (exp : Explosion) :
    ∃ n : ℕ, (stepExplosion env i a exp).score = a.score + 20 * n := by
  simp only [stepExplosion]
  split
  · split
    · obtain ⟨n2, hn2⟩ := proxSweep_score exp.x exp.y
        (explosionRadius exp.maxRadius (exp.life - jq (1 / EXPLOSION_DURATION))) []
      refine ⟨a.enemies.length + n2, ?_⟩
      simp only [hn2]
      push_cast
      ring
    · obtain ⟨n2, hn2⟩ := proxSweep_score exp.x exp.y
        (explosionRadius exp.maxRadius (exp.life - jq (1 / EXPLOSION_DURATION)))
        a.enemies
      refine ⟨n2, ?_⟩
      simp only [hn2]
  · obtain ⟨n2, hn2⟩ := proxSweep_score exp.x exp.y
      (explosionRadius exp.maxRadius (exp.life - jq (1 / EXPLOSION_DURATION)))
      a.enemies
    refine ⟨n2, ?_⟩
    simp only [hn2]

theorem runExplosions_score (env : Env) :
    ∀ (es : List Explosion) (i : ℕ) (a : XAcc),
      ∃ n : ℕ, (runExplosions env i a es).score = a.score + 20 * n := by
  intro es
  induction es with
  | nil => intro i a; exact ⟨0, by simp [runExplosions]⟩
  | cons e es ih =>
      intro i a
      obtain ⟨n1, h1⟩ := stepExplosion_score env i a e
      obtain ⟨n2, h2⟩ := ih (i + 1) (stepExplosion env i a e)
      refine ⟨n1 + n2, ?_⟩
      rw [runExplosions, h2, h1]
      push_cast
      ring

theorem explosionPhase_score (env : Env) (g : Game) :
    ∃ n : ℕ, (explosionPhase env g).score = g.score + 20 * n := by
  obtain ⟨n, hn⟩ := runExplosions_score env g.explosions 0
    { kept := [], enemies := g.enemies, particles := g.particles,
      score := g.score }
  exact ⟨n, hn⟩

theorem update_score (env : Env) (g : Game) :
    ∃ n : ℕ, (update env g).score = g.score + 20 * n := by
  simp only [update]
  split
  · exact ⟨0, by simp⟩
  · split
    · exact ⟨0, by simp⟩
    · obtain ⟨n1, h1⟩ := missilePhase_score env (enemyPhase env (spawnPhase env g))
      obtain ⟨n2, h2⟩ :=
        explosionPhase_score env (missilePhase env (enemyPhase env (spawnPhase env g)))
      have h0 : (enemyPhase env (spawnPhase env g)).score = g.score := by
        rw [(enemyPhase_frame env (spawnPhase env g)).1, (spawnPhase_frame env g).1]
      have h5 : (particlePhase (explosionPhase env (missilePhase env
          (enemyPhase env (spawnPhase env g))))).score = g.score + 20 * (n1 + n2) := by
        rw [(particlePhase_frame _).1, h2, h1, h0]
        ring
      refine ⟨n1 + n2, ?_⟩
      split
      · exact h5
      · split
        · exact h5
        · exact h5

-- --- C9: the score is a non-negative multiple of 20 and never decreases ---

/-- C9: the score starts at 0 on initialization/reset; every tick adds exactly
a multiple of 20 (explosion-proximity kills, lightning-chain kills and
rare-bomb clears each award 20 per enemy), so divisibility by 20 is preserved
and the score never decreases during a session; a fire request never changes
the score. -/
theorem C9_score_multiple_of_20 (env : Env) (g : Game) (w h tx ty : JNum)
    (gs : GState) (p : Bool) :
    (initGame w h gs p).score = 0 ∧
    (∃ n : ℕ, (update env g).score = g.score + 20 * n) ∧
    (20 ∣ g.score → 20 ∣ (update env g).score) ∧
    g.score ≤ (update env g).score ∧
    (fireMissile env tx ty g).score = g.score := by
  obtain ⟨n, hn⟩ := update_score env g
  refine ⟨rfl, ⟨n, hn⟩, ?_, ?_, ?_⟩
  · intro hdvd
    rw [hn]
    exact dvd_add hdvd (dvd_mul_right 20 (n : ℤ))
  · rw [hn]
    have hpos : (0 : ℤ) ≤ 20 * (n : ℤ) := by positivity
    linarith
  · rw [fireMissile]
    split
    · rfl
    · split
      · rfl
      · cases hsel : selectBattery tx g.batteries with
        | none => rfl
        | some i =>
            cases hget : g.batteries.get? i with
            | none => simp only [hget]
            | some b => simp only [hget]

/-- C9 (witness): the invariant instantiated on a concrete mid-session game
with score 40. -/
theorem C9_witness :
    (initGame (jq 800) (jq 600) GState.START false).score = 0 ∧
    (∃ n : ℕ, (update trivEnv c9Game).score = c9Game.score + 20 * n) ∧
    (20 ∣ c9Game.score → 20 ∣ (update trivEnv c9Game).score) ∧
    c9Game.score ≤ (update trivEnv c9Game).score ∧
    (fireMissile trivEnv (jq 100) (jq 50) c9Game).score = c9Game.score :=
  C9_score_multiple_of_20 trivEnv c9Game (jq 800) (jq 600) (jq 100) (jq 50)
    GState.START false

-- --- C10 machinery: how a tick may change cities and batteries ---

theorem battRel_refl (txs : List JNum) (b : Battery) : battRel txs b b :=
  ⟨rfl, rfl, rfl, rfl, rfl, fun h => h, fun h => Or.inl h⟩

theorem cityRel_refl (txs : List JNum) (c : City) : cityRel txs c c :=
  ⟨rfl, rfl, rfl, fun h => h, fun h => Or.inl h⟩

theorem forall2_battRel_refl (txs : List JNum) :
    ∀ l : List Battery, List.Forall₂ (battRel txs) l l := by
  intro l
  induction l with
  | nil => exact List.Forall₂.nil
  | cons b l ih => exact List.Forall₂.cons (battRel_refl txs b) ih

theorem forall2_cityRel_refl (txs : List JNum) :
    ∀ l : List City, List.Forall₂ (cityRel txs) l l := by
  intro l
  induction l with
  | nil => exact List.Forall₂.nil
  | cons c l ih => exact List.Forall₂.cons (cityRel_refl txs c) ih

theorem battRel_subset {txs txs2 : List JNum} (hsub : ∀ tx ∈ txs, tx ∈ txs2)
    {b b2 : Battery} (h : battRel txs b b2) : battRel txs2 b b2 := by
  obtain ⟨h1, h2, h3, h4, h5, h6, h7⟩ := h
  refine ⟨h1, h2, h3, h4, h5, h6, fun ha => ?_⟩
  rcases h7 ha with hf | ⟨tx, htx, hhit⟩
  · exact Or.inl hf
  · exact Or.inr ⟨tx, hsub tx htx, hhit⟩

theorem cityRel_subset {txs txs2 : List JNum} (hsub : ∀ tx ∈ txs, tx ∈ txs2)
    {c c2 : City} (h : cityRel txs c c2) : cityRel txs2 c c2 := by
  obtain ⟨h1, h2, h3, h4, h5⟩ := h
  refine ⟨h1, h2, h3, h4, fun ha => ?_⟩
  rcases h5 ha with hf | ⟨tx, htx, hhit⟩
  · exact Or.inl hf
  · exact Or.inr ⟨tx, hsub tx htx, hhit⟩

theorem battRel_comp {t1 t2 : List JNum} {b b2 b3 : Battery}
    (h : battRel t1 b b2) (h2 : battRel t2 b2 b3) : battRel (t1 ++ t2) b b3 := by
  obtain ⟨e1, e2, e3, e4, e5, m1, p1⟩ := h
  obtain ⟨f1, f2, f3, f4, f5, m2, p2⟩ := h2
  have hhit : ∀ tx, batteryHit tx b2 = batteryHit tx b := by
    intro tx
    rw [batteryHit, batteryHit, e2]
  refine ⟨f1.trans e1, f2.trans e2, f3.trans e3, f4.trans e4, f5.trans e5,
    fun ha => m2 (m1 ha), fun ha => ?_⟩
  rcases p2 ha with hb2 | ⟨tx, htx, hh⟩
  · rcases p1 hb2 with hb | ⟨tx, htx, hh⟩
    · exact Or.inl hb
    · exact Or.inr ⟨tx, List.mem_append_left _ htx, hh⟩
  · exact Or.inr ⟨tx, List.mem_append_right _ htx, by rw [← hhit tx]; exact hh⟩

theorem cityRel_comp {t1 t2 : List JNum} {c c2 c3 : City}
    (h : cityRel t1 c c2) (h2 : cityRel t2 c2 c3) : cityRel (t1 ++ t2) c c3 := by
  obtain ⟨e1, e2, e3, m1, p1⟩ := h
  obtain ⟨f1, f2, f3, m2, p2⟩ := h2
  have hhit : ∀ tx, cityHit tx c2 = cityHit tx c := by
    intro tx
    rw [cityHit, cityHit, e2]
  refine ⟨f1.trans e1, f2.trans e2, f3.trans e3, fun ha => m2 (m1 ha),
    fun ha => ?_⟩
  rcases p2 ha with hc2 | ⟨tx, htx, hh⟩
  · rcases p1 hc2 with hc | ⟨tx, htx, hh⟩
    · exact Or.inl hc
    · exact Or.inr ⟨tx, List.mem_append_left _ htx, hh⟩
  · exact Or.inr ⟨tx, List.mem_append_right _ htx, by rw [← hhit tx]; exact hh⟩

theorem forall2_battRel_comp {t1 t2 : List JNum} :
    ∀ {l1 l2 l3 : List Battery}, List.Forall₂ (battRel t1) l1 l2 →
      List.Forall₂ (battRel t2) l2 l3 →
      List.Forall₂ (battRel (t1 ++ t2)) l1 l3 := by
  intro l1 l2 l3 h1
  induction h1 generalizing l3 with
  | nil =>
      intro h2
      cases h2
      exact List.Forall₂.nil
  | cons hr _ ih =>
      intro h2
      cases h2 with
      | cons hr2 ht2 => exact List.Forall₂.cons (battRel_comp hr hr2) (ih ht2)

theorem forall2_cityRel_comp {t1 t2 : List JNum} :
    ∀ {l1 l2 l3 : List City}, List.Forall₂ (cityRel t1) l1 l2 →
      List.Forall₂ (cityRel t2) l2 l3 →
      List.Forall₂ (cityRel (t1 ++ t2)) l1 l3 := by
  intro l1 l2 l3 h1
  induction h1 generalizing l3 with
  | nil =>
      intro h2
      cases h2
      exact List.Forall₂.nil
  | cons hr _ ih =>
      intro h2
      cases h2 with
      | cons hr2 ht2 => exact List.Forall₂.cons (cityRel_comp hr hr2) (ih ht2)

theorem dfb_forall2 (tx : JNum) :
    ∀ bs : List Battery,
      List.Forall₂ (battRel [tx]) bs (deactivateFirstBattery tx bs) := by
  intro bs
  induction bs with
  | nil => exact List.Forall₂.nil
  | cons b bs ih =>
      rw [deactivateFirstBattery]
      split
      · next hhit =>
          refine List.Forall₂.cons ⟨rfl, rfl, rfl, rfl, rfl, fun _ => rfl,
            fun _ => Or.inr ⟨tx, List.mem_singleton_self tx, hhit⟩⟩ ?_
          exact forall2_battRel_refl [tx] bs
      · exact List.Forall₂.cons (battRel_refl [tx] b) ih

theorem dfc_forall2 (tx : JNum) :
    ∀ cs : List City,
      List.Forall₂ (cityRel [tx]) cs (deactivateFirstCity tx cs) := by
  intro cs
  induction cs with
  | nil => exact List.Forall₂.nil
  | cons c cs ih =>
      rw [deactivateFirstCity]
      split
      · next hhit =>
          refine List.Forall₂.cons ⟨rfl, rfl, rfl, fun _ => rfl,
            fun _ => Or.inr ⟨tx, List.mem_singleton_self tx, hhit⟩⟩ ?_
          exact forall2_cityRel_refl [tx] cs
      · exact List.Forall₂.cons (cityRel_refl [tx] c) ih

theorem runEnemies_defense (env : Env) :
    ∀ (es : List Enemy) (i : ℕ) (a : EAcc),
      ∃ txs : List JNum,
        (∀ tx ∈ txs, ∃ e ∈ es,
          JNum.ge (advanceEnemy e).progress (jq 1) = true ∧ tx = e.targetX) ∧
        List.Forall₂ (battRel txs) a.batteries (runEnemies env i a es).batteries ∧
        List.Forall₂ (cityRel txs) a.cities (runEnemies env i a es).cities := by
  intro es
  induction es with
  | nil =>
      intro i a
      exact ⟨[], fun tx htx => absurd htx (List.not_mem_nil tx),
        forall2_battRel_refl [] _, forall2_cityRel_refl [] _⟩
  | cons e es ih =>
      intro i a
      by_cases hge : JNum.ge (advanceEnemy e).progress (jq 1) = true
      · obtain ⟨txs2, hprov, hbat, hcit⟩ := ih (i + 1) (stepEnemy env i a e)
        refine ⟨e.targetX :: txs2, ?_, ?_, ?_⟩
        · intro tx htx
          rcases List.mem_cons.mp htx with rfl | htx2
          · exact ⟨e, List.mem_cons_self e es, hge, rfl⟩
          · obtain ⟨e2, he2, hge2, htx3⟩ := hprov tx htx2
            exact ⟨e2, List.mem_cons_of_mem e he2, hge2, htx3⟩
        · rw [runEnemies]
          have hstep : (stepEnemy env i a e).batteries =
              deactivateFirstBattery e.targetX a.batteries := by
            rw [stepEnemy_impact env i a e hge]
          rw [hstep] at hbat
          have := forall2_battRel_comp (dfb_forall2 e.targetX a.batteries) hbat
          exact this
        · rw [runEnemies]
          have hstep : (stepEnemy env i a e).cities =
              deactivateFirstCity e.targetX a.cities := by
            rw [stepEnemy_impact env i a e hge]
          rw [hstep] at hcit
          have := forall2_cityRel_comp (dfc_forall2 e.targetX a.cities) hcit
          exact this
      · have hge' : JNum.ge (advanceEnemy e).progress (jq 1) = false := by
          revert hge
          cases JNum.ge (advanceEnemy e).progress (jq 1) <;> simp
        obtain ⟨txs2, hprov, hbat, hcit⟩ := ih (i + 1) (stepEnemy env i a e)
        have hstep : stepEnemy env i a e = { a with kept := a.kept ++ [advanceEnemy e] } :=
          stepEnemy_keep env i a e hge'
        refine ⟨txs2, ?_, ?_, ?_⟩
        · intro tx htx
          obtain ⟨e2, he2, hge2, htx3⟩ := hprov tx htx
          exact ⟨e2, List.mem_cons_of_mem e he2, hge2, htx3⟩
        · rw [runEnemies]
          have hb2 : (stepEnemy env i a e).batteries = a.batteries := by
            rw [hstep]
          rw [hb2] at hbat
          exact hbat
        · rw [runEnemies]
          have hc2 : (stepEnemy env i a e).cities = a.cities := by
            rw [hstep]
          rw [hc2] at hcit
          exact hcit

theorem enemyPhase_defense (env : Env) (g2 : Game) :
    ∃ txs : List JNum,
      (∀ tx ∈ txs, ∃ e ∈ g2.enemies,
        JNum.ge (advanceEnemy e).progress (jq 1) = true ∧ tx = e.targetX) ∧
      List.Forall₂ (battRel txs) g2.batteries (enemyPhase env g2).batteries ∧
      List.Forall₂ (cityRel txs) g2.cities (enemyPhase env g2).cities := by
  obtain ⟨txs, hprov, hbat, hcit⟩ := runEnemies_defense env g2.enemies 0
    { kept := [], explosions := g2.explosions, cities := g2.cities,
      batteries := g2.batteries }
  exact ⟨txs, hprov, hbat, hcit⟩

theorem update_stores_eq (env : Env) (g : Game)
    (hnp : ¬ g.gameState ≠ GState.PLAYING) (hps : ¬ g.isPaused = true) :
    (update env g).batteries = (enemyPhase env (spawnPhase env g)).batteries ∧
    (update env g).cities = (enemyPhase env (spawnPhase env g)).cities := by
  refine ⟨?_, ?_⟩
  · simp only [update]
    rw [if_neg hnp, if_neg hps]
    split
    · show (particlePhase (explosionPhase env (missilePhase env
        (enemyPhase env (spawnPhase env g))))).batteries = _
      rw [(particlePhase_frame _).2.2.2.2.1, (explosionPhase_frame _ _).2.1,
          (missilePhase_frame _ _).2.1]
    · split
      · show (particlePhase (explosionPhase env (missilePhase env
          (enemyPhase env (spawnPhase env g))))).batteries = _
        rw [(particlePhase_frame _).2.2.2.2.1, (explosionPhase_frame _ _).2.1,
            (missilePhase_frame _ _).2.1]
      · show (particlePhase (explosionPhase env (missilePhase env
          (enemyPhase env (spawnPhase env g))))).batteries = _
        rw [(particlePhase_frame _).2.2.2.2.1, (explosionPhase_frame _ _).2.1,
            (missilePhase_frame _ _).2.1]
  · simp only [update]
    rw [if_neg hnp, if_neg hps]
    split
    · show (particlePhase (explosionPhase env (missilePhase env
        (enemyPhase env (spawnPhase env g))))).cities = _
      rw [(particlePhase_frame _).2.2.2.1, (explosionPhase_frame _ _).1,
          (missilePhase_frame _ _).1]
    · split
      · show (particlePhase (explosionPhase env (missilePhase env
          (enemyPhase env (spawnPhase env g))))).cities = _
        rw [(particlePhase_frame _).2.2.2.1, (explosionPhase_frame _ _).1,
            (missilePhase_frame _ _).1]
      · show (particlePhase (explosionPhase env (missilePhase env
          (enemyPhase env (spawnPhase env g))))).cities = _
        rw [(particlePhase_frame _).2.2.2.1, (explosionPhase_frame _ _).1,
            (missilePhase_frame _ _).1]

theorem map_ammo_of_forall2 :
    ∀ {txs : List JNum} {l1 l2 : List Battery},
      List.Forall₂ (battRel txs) l1 l2 →
      l2.map (fun b => b.ammo) = l1.map (fun b => b.ammo) := by
  intro txs l1 l2 h
  induction h with
  | nil => rfl
  | cons hr _ ih =>
      rw [List.map_cons, List.map_cons, ih, hr.2.2.2.1]

-- --- C10: active flags change only by direct impact; effects are frame-safe ---

/-- C10: across one tick, every battery keeps its ammo; a city or battery can
flip from active to inactive only when some enemy that impacted this tick
(progress reached 1 after the advance) has its target x-coordinate within the
5-unit tolerance of it, and an inactive defense never reactivates (the
`battRel`/`cityRel` relations also fix id and position); moreover the missile
phase (all interceptor terminal effects), the explosion phase (all explosion
collisions, normal and rare) and the particle phase leave the city and
battery stores exactly unchanged — they only remove enemies and add score. -/
theorem C10_defense_frame (env : Env) (g : Game) :
    (update env g).batteries.map (fun b => b.ammo) =
      g.batteries.map (fun b => b.ammo) ∧
    (∃ txs : List JNum,
      (∀ tx ∈ txs, ∃ e ∈ (spawnPhase env g).enemies,
        JNum.ge (advanceEnemy e).progress (jq 1) = true ∧ tx = e.targetX) ∧
      List.Forall₂ (battRel txs) g.batteries (update env g).batteries ∧
      List.Forall₂ (cityRel txs) g.cities (update env g).cities) ∧
    (missilePhase env g).cities = g.cities ∧
    (missilePhase env g).batteries = g.batteries ∧
    (explosionPhase env g).cities = g.cities ∧
    (explosionPhase env g).batteries = g.batteries ∧
    (particlePhase g).cities = g.cities ∧
    (particlePhase g).batteries = g.batteries := by
  have hmain : ∃ txs : List JNum,
      (∀ tx ∈ txs, ∃ e ∈ (spawnPhase env g).enemies,
        JNum.ge (advanceEnemy e).progress (jq 1) = true ∧ tx = e.targetX) ∧
      List.Forall₂ (battRel txs) g.batteries (update env g).batteries ∧
      List.Forall₂ (cityRel txs) g.cities (update env g).cities := by
    by_cases hnp : g.gameState ≠ GState.PLAYING
    · have hupd : update env g = g := by rw [update, if_pos hnp]
      refine ⟨[], fun tx htx => absurd htx (List.not_mem_nil tx), ?_, ?_⟩
      · rw [hupd]
        exact forall2_battRel_refl [] _
      · rw [hupd]
        exact forall2_cityRel_refl [] _
    · by_cases hps : g.isPaused = true
      · have hupd : update env g = g := by rw [update, if_neg hnp, if_pos hps]
        refine ⟨[], fun tx htx => absurd htx (List.not_mem_nil tx), ?_, ?_⟩
        · rw [hupd]
          exact forall2_battRel_refl [] _
        · rw [hupd]
          exact forall2_cityRel_refl [] _
      · obtain ⟨txs, hprov, hbat, hcit⟩ := enemyPhase_defense env (spawnPhase env g)
        have hsb : (spawnPhase env g).batteries = g.batteries :=
          (spawnPhase_frame env g).2.2.2.2.1
        have hsc : (spawnPhase env g).cities = g.cities :=
          (spawnPhase_frame env g).2.2.2.1
        rw [hsb] at hbat
        rw [hsc] at hcit
        have hub := (update_stores_eq env g hnp hps).1
        have huc := (update_stores_eq env g hnp hps).2
        rw [← hub] at hbat
        rw [← huc] at hcit
        exact ⟨txs, hprov, hbat, hcit⟩
  obtain ⟨txs0, hprov0, hbat0, hcit0⟩ := hmain
  exact ⟨map_ammo_of_forall2 hbat0, ⟨txs0, hprov0, hbat0, hcit0⟩,
    (missilePhase_frame env g).1,
    (missilePhase_frame env g).2.1, (explosionPhase_frame env g).1,
    (explosionPhase_frame env g).2.1, (particlePhase_frame g).2.2.2.1,
    (particlePhase_frame g).2.2.2.2.1⟩

/-- C10 (witness): the frame property instantiated on a concrete game. -/
theorem C10_witness :
    (update trivEnv c10Game).batteries.map (fun b => b.ammo) =
      c10Game.batteries.map (fun b => b.ammo) ∧
    (∃ txs : List JNum,
      (∀ tx ∈ txs, ∃ e ∈ (spawnPhase trivEnv c10Game).enemies,
        JNum.ge (advanceEnemy e).progress (jq 1) = true ∧ tx = e.targetX) ∧
      List.Forall₂ (battRel txs) c10Game.batteries
        (update trivEnv c10Game).batteries ∧
      List.Forall₂ (cityRel txs) c10Game.cities
        (update trivEnv c10Game).cities) ∧
    (missilePhase trivEnv c10Game).cities = c10Game.cities ∧
    (missilePhase trivEnv c10Game).batteries = c10Game.batteries ∧
    (explosionPhase trivEnv c10Game).cities = c10Game.cities ∧
    (explosionPhase trivEnv c10Game).batteries = c10Game.batteries ∧
    (particlePhase c10Game).cities = c10Game.cities ∧
    (particlePhase c10Game).batteries = c10Game.batteries :=
  C10_defense_frame trivEnv c10Game

-- --- C1: end-of-tick terminal check ---

theorem jq_inj (a b : ℚ) : jq a = jq b ↔ a = b := by
  simp [jq]

theorem jq_jsEq (a b : ℚ) : JNum.jsEq (jq a) (jq b) = decide (a = b) := rfl

/-- Evaluation rule for one non-rare explosion step whose post-decrement life
is still positive, with the life arithmetic, radius, particle batch and
proximity sweep supplied as hypotheses. -/
theorem stepExplosion_eval (env : Env) (i : ℕ) (a : XAcc) (exp : Explosion)
    (l0 l2 r : ℚ) (parts : List Particle) (sw : List Enemy × ℤ)
    (hl0 : exp.life = jq l0)
    (hl2 : l0 - 1 / 60 = l2)
    (hrare : exp.isRare = false)
    (hparts : (if JNum.jsEq (jq l0) (jq 1) = true
               then mkParticles env i exp.x exp.y else []) = parts)
    (hr : explosionRadius exp.maxRadius (jq l2) = jq r)
    (hsw : proxSweep exp.x exp.y (jq r) a.enemies = sw)
    (hpos : 0 < l2) :
    stepExplosion env i a exp =
      { kept := a.kept ++ [{ exp with life := jq l2, radius := jq r }],
        enemies := sw.1, particles := a.particles ++ parts,
        score := a.score + sw.2 } := by
  have hlife2 : exp.life - jq (1 / EXPLOSION_DURATION) = jq l2 := by
    rw [hl0, show (1 / EXPLOSION_DURATION : ℚ) = 1 / 60 from rfl, jq_sub, hl2]
  have hcond : (exp.isRare && JNum.lt (jq l2) (jq (3 / 5)) &&
      JNum.gt (jq l2) (jq (2 / 5))) = false := by
    rw [hrare, Bool.false_and, Bool.false_and]
  have hkept : JNum.gt (jq l2) (jq 0) = true := by
    rw [jq_gt]
    exact decide_eq_true hpos
  have hjs : (if JNum.jsEq exp.life (jq 1) = true
      then mkParticles env i exp.x exp.y else []) = parts := by
    rw [hl0]
    exact hparts
  rw [stepExplosion]
  simp only [hlife2, hcond, hkept, hjs, hr, Bool.false_eq_true, if_true,
    if_false]
  simp only [hsw]

/-- C1 (counterexample): `c1Game` enters the tick with score 980; during the
tick an explosion kill brings the cumulative score to exactly 1000
(= WIN_SCORE) and the last battery falls to a direct impact — yet the session
transitions to GAMEOVER, not WIN, because the end-of-tick win check reads the
score mirror that is only re-synced between ticks and therefore still holds
980.  This refutes both "score at least 1000 at that tick implies WIN on that
tick" and "GAMEOVER only when the score is below 1000". -/
theorem C1_counterexample :
    (update trivEnv c1Game).score = 1000 ∧
    (update trivEnv c1Game).batteries.all (fun b => !b.active) = true ∧
    (update trivEnv c1Game).gameState = GState.GAMEOVER := by
  -- the spawn gate does not fire (trivEnv rolls 9)
  have hgate : ¬ (trivEnv.spawnGate < 3 / 200 + (c1Game.score : ℚ) / 5000) := by
    norm_num [trivEnv, c1Game]
  have hs1 : spawnPhase trivEnv c1Game = c1Game := by
    rw [spawnPhase, if_neg hgate]
  -- enemy phase: c1e1 impacts (progress 3/2), c1e2 advances to (0, 11)
  have hadv1 : advanceEnemy c1e1 = { c1e1 with
      progress := jq (1 / 2 + 3 / 3),
      x := jq (100 + (100 - 100) * (1 / 2 + 3 / 3)),
      y := jq (-3 + (0 - -3) * (1 / 2 + 3 / 3)) } :=
    advanceEnemy_fin c1e1 100 (-3) 100 0 3 (1 / 2) 3 rfl rfl rfl rfl rfl rfl
      (by norm_num) (by norm_num) (by norm_num)
  have hge1 : JNum.ge (advanceEnemy c1e1).progress (jq 1) = true := by
    rw [hadv1]
    show JNum.ge (jq (1 / 2 + 3 / 3)) (jq 1) = true
    rw [jq_ge]
    norm_num
  have hadv2 : advanceEnemy c1e2 = { c1e2 with
      progress := jq (1 / 10 + 1 / 100),
      x := jq (0 + (0 - 0) * (1 / 10 + 1 / 100)),
      y := jq (0 + (100 - 0) * (1 / 10 + 1 / 100)) } :=
    advanceEnemy_fin c1e2 0 0 0 100 1 (1 / 10) 100 rfl rfl rfl rfl rfl rfl
      (by norm_num) (by norm_num) (by norm_num)
  have hge2 : JNum.ge (advanceEnemy c1e2).progress (jq 1) = false := by
    rw [hadv2]
    show JNum.ge (jq (1 / 10 + 1 / 100)) (jq 1) = false
    rw [jq_ge]
    norm_num
  have hadv2' : advanceEnemy c1e2 = c1e2adv := by
    rw [hadv2]
    norm_num [c1e2, c1e2adv, jq_inj]
  have hhit1 : batteryHit (jq 100) c1b1 = true := by
    rw [batteryHit, show c1b1.x = jq 100 from rfl, jq_sub, jq_jabs, jq_lt]
    norm_num
  have hdfb : deactivateFirstBattery (jq 100) [c1b1, c1b2, c1b3] =
      [c1b1down, c1b2, c1b3] := by
    rw [deactivateFirstBattery, if_pos hhit1]
    rfl
  have hs2 : enemyPhase trivEnv c1Game = c1Mid := by
    rw [enemyPhase, show c1Game.enemies = [c1e1, c1e2] from rfl,
        show c1Game.explosions = [c1exp] from rfl,
        show c1Game.cities = ([] : List City) from rfl,
        show c1Game.batteries = [c1b1, c1b2, c1b3] from rfl,
        runEnemies, stepEnemy_impact trivEnv 0 _ c1e1 hge1,
        runEnemies, stepEnemy_keep trivEnv 1 _ c1e2 hge2, runEnemies]
    simp only [hadv2', show c1e1.targetX = jq 100 from rfl,
      show c1e1.targetY = jq 0 from rfl,
      show trivEnv.impactId 0 = "imp" from rfl, hdfb, deactivateFirstCity,
      List.cons_append, List.nil_append, List.append_nil]
    simp [c1Game, c1Mid, c1imp]
  -- missile phase: no missiles, no-op
  have hs3 : missilePhase trivEnv c1Mid = c1Mid := rfl
  -- explosion phase: c1exp kills c1e2 (+20), the impact explosion just decays
  have hgt1 : JNum.gt (jq (47 / 60)) (jq (1 / 2)) = true := by
    rw [jq_gt]
    norm_num
  have hrad1 : explosionRadius c1exp.maxRadius (jq (47 / 60)) = jq (52 / 3) := by
    show explosionRadius (jq 40) (jq (47 / 60)) = jq (52 / 3)
    rw [explosionRadius, if_pos hgt1]
    simp only [jq_sub, jq_mul, jq_maxJ]
    norm_num [jq_inj]
  have hgt2 : JNum.gt (jq (59 / 60)) (jq (1 / 2)) = true := by
    rw [jq_gt]
    norm_num
  have hrad2 : explosionRadius c1imp.maxRadius (jq (59 / 60)) = jq 1 := by
    show explosionRadius (jq 30) (jq (59 / 60)) = jq 1
    rw [explosionRadius, if_pos hgt2]
    simp only [jq_sub, jq_mul, jq_maxJ]
    norm_num [jq_inj]
  have hclose : JNum.lt (JNum.sqrtJ
      ((c1e2adv.x - c1exp.x) * (c1e2adv.x - c1exp.x) +
       (c1e2adv.y - c1exp.y) * (c1e2adv.y - c1exp.y))) (jq (52 / 3)) = true := by
    rw [show c1e2adv.x = jq 0 from rfl, show c1e2adv.y = jq 11 from rfl,
        show c1exp.x = jq 0 from rfl, show c1exp.y = jq 11 from rfl]
    simp only [jq_sub, jq_mul, jq_add]
    norm_num [sqrtJ_zero, jq_lt]
  have hprox1 : proxSweep c1exp.x c1exp.y (jq (52 / 3)) [c1e2adv] = ([], 20) := by
    simp [proxSweep, hclose]
  have hjs1 : JNum.jsEq (jq (4 / 5)) (jq 1) = false := by
    rw [jq_jsEq]
    norm_num
  have hjs2 : JNum.jsEq (jq (1 : ℚ)) (jq 1) = true := by
    rw [jq_jsEq]
    norm_num
  have hstep1 : stepExplosion trivEnv 0 ⟨[], [c1e2adv], [], 980⟩ c1exp =
      ⟨[c1expAfter], [], [], 1000⟩ := by
    rw [stepExplosion_eval trivEnv 0 ⟨[], [c1e2adv], [], 980⟩ c1exp (4 / 5)
        (47 / 60) (52 / 3) [] ([], 20) rfl (by norm_num) rfl
        (by rw [hjs1]; simp) hrad1 hprox1 (by norm_num)]
    norm_num [c1exp, c1expAfter]
  have hstep2 : stepExplosion trivEnv 1 ⟨[c1expAfter], [], [], 1000⟩ c1imp =
      ⟨[c1expAfter, c1impAfter], [],
        mkParticles trivEnv 1 c1imp.x c1imp.y, 1000⟩ := by
    rw [stepExplosion_eval trivEnv 1 ⟨[c1expAfter], [], [], 1000⟩ c1imp 1
        (59 / 60) 1 (mkParticles trivEnv 1 c1imp.x c1imp.y) ([], 0) rfl
        (by norm_num) rfl (by rw [hjs2]; simp) hrad2 rfl (by norm_num)]
    norm_num [c1imp, c1impAfter]
  have hrun : runExplosions trivEnv 0 ⟨[], [c1e2adv], [], 980⟩ [c1exp, c1imp] =
      ⟨[c1expAfter, c1impAfter], [],
        mkParticles trivEnv 1 c1imp.x c1imp.y, 1000⟩ := by
    rw [runExplosions, hstep1, runExplosions, hstep2, runExplosions]
  have hs4 : explosionPhase trivEnv c1Mid = c1Post := by
    rw [explosionPhase, show c1Mid.explosions = [c1exp, c1imp] from rfl,
        show c1Mid.enemies = [c1e2adv] from rfl,
        show c1Mid.particles = ([] : List Particle) from rfl,
        show c1Mid.score = (980 : ℤ) from rfl, hrun]
    rfl
  -- terminal check: entry score 980 < 1000, every battery now inactive
  have hnp : ¬ c1Game.gameState ≠ GState.PLAYING := by decide
  have hps : ¬ c1Game.isPaused = true := by decide
  have hnw : ¬ WIN_SCORE ≤ c1Game.score := by decide
  have hall : (particlePhase c1Post).batteries.all (fun b => !b.active) = true :=
    rfl
  have hupd : update trivEnv c1Game =
      { particlePhase c1Post with gameState := GState.GAMEOVER } := by
    simp only [update]
    rw [if_neg hnp, if_neg hps, hs1, hs2, hs3, hs4, if_neg hnw, if_pos hall]
  refine ⟨?_, ?_, ?_⟩
  · rw [hupd]
    show (particlePhase c1Post).score = 1000
    rw [(particlePhase_frame c1Post).1]
    rfl
  · rw [hupd]
    exact hall
  · rw [hupd]

/-- C1 (amended): both terminal checks run after all entity updates, and the
win check does precede the defeat check, but the score they read is the score
the tick *started* with (the `scoreRef` mirror is only re-synced between
animation frames): the session transitions to WIN exactly when the tick-entry
score is at least WIN_SCORE (1000), regardless of the batteries; otherwise it
transitions to GAMEOVER exactly when every battery is inactive after this
tick's updates; otherwise it stays PLAYING.  A kill that crosses the 1000
threshold during a tick therefore produces WIN only at the end of the *next*
tick, and if the last battery falls on that same tick the session ends in
GAMEOVER instead. -/
theorem C1_terminal_check (env : Env) (g : Game)
    (hplay : g.gameState = GState.PLAYING) (hpause : g.isPaused = false) :
    (WIN_SCORE ≤ g.score → (update env g).gameState = GState.WIN) ∧
    (g.score < WIN_SCORE →
      ((update env g).gameState = GState.GAMEOVER ↔
        (update env g).batteries.all (fun b => !b.active) = true)) ∧
    (g.score < WIN_SCORE →
      (update env g).batteries.all (fun b => !b.active) = false →
      (update env g).gameState = GState.PLAYING) := by
  have hnp : ¬ g.gameState ≠ GState.PLAYING := by rw [hplay]; simp
  have hps : ¬ g.isPaused = true := by rw [hpause]; simp
  have hG5 : (particlePhase (explosionPhase env (missilePhase env (enemyPhase env
      (spawnPhase env g))))).gameState = GState.PLAYING := by
    rw [(particlePhase_frame _).2.1, (explosionPhase_frame _ _).2.2.2.1,
        (missilePhase_frame _ _).2.2.2.1, (enemyPhase_frame _ _).2.1,
        (spawnPhase_frame _ _).2.1, hplay]
  refine ⟨?_, ?_, ?_⟩
  · intro hwin
    simp only [update]
    rw [if_neg hnp, if_neg hps, if_pos hwin]
  · intro hlt
    have hnw : ¬ WIN_SCORE ≤ g.score := not_le.mpr hlt
    simp only [update]
    rw [if_neg hnp, if_neg hps, if_neg hnw]
    by_cases hall : (particlePhase (explosionPhase env (missilePhase env
        (enemyPhase env (spawnPhase env g))))).batteries.all
          (fun b => !b.active) = true
    · rw [if_pos hall]
      exact ⟨fun _ => hall, fun _ => rfl⟩
    · rw [if_neg hall]
      constructor
      · intro hgm
        rw [hG5] at hgm
        exact absurd hgm (by decide)
      · intro hbt
        exact absurd hbt hall
  · intro hlt hallf
    have hnw : ¬ WIN_SCORE ≤ g.score := not_le.mpr hlt
    simp only [update] at hallf ⊢
    rw [if_neg hnp, if_neg hps, if_neg hnw] at hallf ⊢
    by_cases hall : (particlePhase (explosionPhase env (missilePhase env
        (enemyPhase env (spawnPhase env g))))).batteries.all
          (fun b => !b.active) = true
    · rw [if_pos hall] at hallf
      have hf : (particlePhase (explosionPhase env (missilePhase env
          (enemyPhase env (spawnPhase env g))))).batteries.all
            (fun b => !b.active) = false := hallf
      rw [hall] at hf
      exact absurd hf (by simp)
    · rw [if_neg hall]
      exact hG5

/-- C1 (witness): the amended terminal-check behavior instantiated on the
concrete game `c1Game` (tick-entry score 980). -/
theorem C1_witness :
    (WIN_SCORE ≤ c1Game.score →
      (update trivEnv c1Game).gameState = GState.WIN) ∧
    (c1Game.score < WIN_SCORE →
      ((update trivEnv c1Game).gameState = GState.GAMEOVER ↔
        (update trivEnv c1Game).batteries.all (fun b => !b.active) = true)) ∧
    (c1Game.score < WIN_SCORE →
      (update trivEnv c1Game).batteries.all (fun b => !b.active) = false →
      (update trivEnv c1Game).gameState = GState.PLAYING) :=
  C1_terminal_check trivEnv c1Game rfl rfl
